import Mathlib

/-!
# Verification of the mlflow trace-insights core

A shallow embedding, in Lean 4, of the pure computational core of the
repository's trace-insights code:

* `src/mlflow/server/trace_insights/time_bucketing.py`
  (`get_time_bucket_value`, `get_bucket_size_ms`, `validate_time_bucket`,
   the offset/validation logic of `get_time_bucket_expression`);
* `src/mlflow/server/trace_insights/dimensions.py`
  (`infer_data_type`, `calculate_npmi_score`, `get_correlation_strength`,
   `get_traces_for_dimension`, `discover_dimensions`,
   `get_correlations_for_filter`, `parse_filter_string`);
* `src/mlflow/utils/databricks_sql_filter.py` (`TraceFilterParser`);
* the NPMI `CASE` expression of `calculate_trace_filter_correlation` in
  `src/mlflow/store/tracking/databricks_sql_store.py`.

Modelling conventions:

* Python `int` is `Int`/`Nat`; Python float arithmetic is modelled over `ℝ`
  (`math.log` becomes `Real.log`, SQL `LOG2` becomes `Real.logb 2`).  Every
  numeric fact proved below is far from any double-rounding boundary.
* Python floor division `//` is `Int.fdiv`.
* Fallible code (`raise`) returns `Except`; the distinct `raise` sites of a
  function are distinguished by constructors of a structured error type
  rather than by formatted message text.
* SQLAlchemy queries over the two tables used by the code (`trace_info`,
  `trace_tags`) are evaluated against an explicit in-memory database `Db`
  (a list of trace rows and a list of tag rows); Python `set`s of trace ids
  become deduplicated lists (only cardinality and membership are consumed).
* `pytz` is external to the repository; the current-UTC-offset lookup of
  `get_time_bucket_expression` is therefore a parameter
  `tzOffsetMs : String → Option Int`, where `none` models the exception
  raised for an unresolvable timezone name (caught by the bare `except`).
-/

namespace MlflowCore

/-! ## Python string helpers -/

/-- Python `str.strip()` on a list of characters (whitespace both ends). -/
def pyStrip (cs : List Char) : List Char :=
  ((cs.dropWhile Char.isWhitespace).reverse.dropWhile Char.isWhitespace).reverse

/-- Python `str.lower()` (ASCII case mapping suffices for every string the
code lowercases). -/
def pyLower (s : String) : String :=
  (s.toList.map Char.toLower).asString

/-- Python `str.startswith(pre)`. -/
def pyStartsWith (s pre : String) : Bool :=
  pre.toList.isPrefixOf s.toList

/-- Python slicing `s[n:]`. -/
def pyDrop (s : String) (n : Nat) : String :=
  (s.toList.drop n).asString

/-- One fuelled pass of Python `str.replace(pat, rep)` (all non-overlapping
occurrences, left to right); the fuel is the input length, which suffices
because `pat` is nonempty at every call site. -/
def replaceAllAux (pat rep : List Char) : Nat → List Char → List Char
  | 0, cs => cs
  | _ + 1, [] => []
  | fuel + 1, c :: cs =>
    if pat ≠ [] ∧ pat.isPrefixOf (c :: cs) then
      rep ++ replaceAllAux pat rep fuel ((c :: cs).drop pat.length)
    else c :: replaceAllAux pat rep fuel cs

/-- Python `s.replace(pat, rep)`. -/
def pyReplace (s pat rep : String) : String :=
  (replaceAllAux pat.toList rep.toList s.toList.length s.toList).asString

/-- One decimal-digit run as accepted inside Python numeric literals:
at least one digit, with single underscores allowed between digits.
Returns the unconsumed remainder, or `none` when no leading digit. -/
def takeDigitRunTail : List Char → List Char
  | '_' :: c :: cs => if c.isDigit then takeDigitRunTail cs else '_' :: c :: cs
  | c :: cs => if c.isDigit then takeDigitRunTail cs else c :: cs
  | [] => []

def takeDigitRun : List Char → Option (List Char)
  | c :: cs => if c.isDigit then some (takeDigitRunTail cs) else none
  | [] => none

/-- Exponent suffix of a Python float literal (or end of input). -/
def pyExpPart : List Char → Bool
  | [] => true
  | e :: cs =>
    if e = 'e' ∨ e = 'E' then
      let cs2 : List Char :=
        match cs with
        | s :: t => if s = '+' ∨ s = '-' then t else s :: t
        | [] => []
      match takeDigitRun cs2 with
      | some [] => true
      | _ => false
    else false

/-- Mantissa-and-exponent part of a Python float literal (after the sign). -/
def pyFloatTail (cs : List Char) : Bool :=
  let low := cs.map Char.toLower
  if low = "inf".toList ∨ low = "infinity".toList ∨ low = "nan".toList then true
  else
    match takeDigitRun cs with
    | some rest =>
      match rest with
      | '.' :: rest2 =>
        match takeDigitRun rest2 with
        | some rest3 => pyExpPart rest3
        | none => pyExpPart rest2
      | _ => pyExpPart rest
    | none =>
      match cs with
      | '.' :: rest2 =>
        match takeDigitRun rest2 with
        | some rest3 => pyExpPart rest3
        | none => false
      | _ => false

/-- Whether Python `float(s)` succeeds (`ValueError` otherwise): optional
whitespace and sign, then `inf`/`infinity`/`nan` (any case) or a decimal
mantissa with optional exponent. -/
def pyFloatOk (s : String) : Bool :=
  match pyStrip s.toList with
  | c :: rest => if c = '+' ∨ c = '-' then pyFloatTail rest else pyFloatTail (c :: rest)
  | [] => false

/-- Decimal value of a digit-and-underscore run (validity checked separately). -/
def digitsVal (cs : List Char) : Nat :=
  cs.foldl (fun a c => if c = '_' then a else a * 10 + (c.toNat - '0'.toNat)) 0

/-- Python `int(s)` on an already-stripped string: optional sign then a
digit run; `none` models `ValueError`. -/
def pyIntParse (cs : List Char) : Option Int :=
  let core : List Char → Option Int := fun ds =>
    match takeDigitRun ds with
    | some [] => some (Int.ofNat (digitsVal ds))
    | _ => none
  match cs with
  | '+' :: rest => core rest
  | '-' :: rest => (core rest).map (fun n => -n)
  | _ => core cs

/-! ## Time bucketing (`time_bucketing.py`) -/

/-- The single raise site of the time-bucketing helpers:
`ValueError("Unsupported time_bucket: ...")`. -/
inductive BucketErr where
  | unsupported (granularity : String)
deriving DecidableEq

/-- `get_time_bucket_value(timestamp_ms, time_bucket, offset_ms)`
(`time_bucketing.py`, lines 123-149).  Python `//` on ints is `Int.fdiv`. -/
def get_time_bucket_value (timestamp_ms : Int) (time_bucket : String)
    (offset_ms : Int) : Except BucketErr Int :=
  if time_bucket = "hour" then
    .ok ((timestamp_ms.fdiv 3600000) * 3600000)
  else if time_bucket = "day" then
    .ok (((timestamp_ms + offset_ms).fdiv 86400000) * 86400000 - offset_ms)
  else if time_bucket = "week" then
    .ok (((timestamp_ms + offset_ms).fdiv 604800000) * 604800000 - offset_ms)
  else
    .error (.unsupported time_bucket)

/-- `get_bucket_size_ms(time_bucket)` (`time_bucketing.py`, lines 82-101). -/
def get_bucket_size_ms (time_bucket : String) : Except BucketErr Int :=
  if time_bucket = "hour" then .ok 3600000
  else if time_bucket = "day" then .ok 86400000
  else if time_bucket = "week" then .ok 604800000
  else .error (.unsupported time_bucket)

/-- `validate_time_bucket(time_bucket)` (`time_bucketing.py`, lines 104-120). -/
def validate_time_bucket (time_bucket : String) : Except BucketErr String :=
  if time_bucket = "hour" ∨ time_bucket = "day" ∨ time_bucket = "week" then
    .ok time_bucket
  else .error (.unsupported time_bucket)

/-- The data determining the SQLAlchemy expression built by
`get_time_bucket_expression`: the chosen granularity and the timezone
offset baked into the day/week arithmetic (the hour branch uses none). -/
structure TimeBucketExpr where
  bucket : String
  offset_ms : Int
deriving DecidableEq

/-- `get_time_bucket_expression(time_bucket, timezone)`
(`time_bucketing.py`, lines 17-79).  `tzOffsetMs` stands for the pytz
current-UTC-offset lookup; `none` models the exception raised for an
unknown timezone, which the bare `except` turns into `offset_ms = 0`.
Python truthiness of the `timezone` argument: `None` and `""` are falsy. -/
def get_time_bucket_expression (tzOffsetMs : String → Option Int)
    (time_bucket : String) (timezone : Option String) :
    Except BucketErr TimeBucketExpr :=
  let offset_ms : Int :=
    match timezone with
    | some tz =>
      if tz ≠ "" ∧ (time_bucket = "day" ∨ time_bucket = "week") then
        match tzOffsetMs tz with
        | some o => o
        | none => 0
      else 0
    | none => 0
  if time_bucket = "hour" then .ok ⟨"hour", offset_ms⟩
  else if time_bucket = "day" then .ok ⟨"day", offset_ms⟩
  else if time_bucket = "week" then .ok ⟨"week", offset_ms⟩
  else .error (.unsupported time_bucket)

/-! ## Value typer (`infer_data_type`, `dimensions.py` lines 131-158) -/

/-- The fixed boolean token set of `infer_data_type`. -/
def booleanTokens : List String :=
  ["true", "false", "yes", "no", "1", "0", "t", "f"]

/-- `infer_data_type(values)`.  A sample value is `Option String`
(`none` is Python `None`).  The boolean test quantifies over non-null
values; the numeric test additionally skips empty strings (`v != ""`),
exactly as the source loop does. -/
def infer_data_type (values : List (Option String)) : String :=
  if values = [] then "string"
  else if values.all fun v =>
      match v with
      | none => true
      | some s => booleanTokens.contains (pyLower s) then "boolean"
  else if values.all fun v =>
      match v with
      | none => true
      | some s => if s = "" then true else pyFloatOk s then "numeric"
  else "string"

/-! ## Filter compiler (`databricks_sql_filter.py`, `TraceFilterParser`)

The clause pattern `([^\s]+)\s*(!=|>=|<=|>|<|=|LIKE|ILIKE|NOT IN|IN)\s*(.+)`
(matched with `re.match` and `re.IGNORECASE`) is embedded by an explicit
backtracking search: the greedy group 1 tries the longest non-whitespace
prefix first, each alternative operator is tried left to right, and
`\s*(.+)` backtracks over trailing whitespace; `.` matches any character
except a newline and `.+` greedily extends to the end of input or the
first newline (`re.match` does not anchor the end). -/

inductive FilterOperator where
  | EQ | NEQ | GT | GTE | LT | LTE | LIKE | ILIKE | IN | NOT_IN
deriving DecidableEq

/-- `.value` of the `FilterOperator` enum. -/
def opText : FilterOperator → String
  | .EQ => "=" | .NEQ => "!=" | .GT => ">" | .GTE => ">=" | .LT => "<" | .LTE => "<="
  | .LIKE => "LIKE" | .ILIKE => "ILIKE" | .IN => "IN" | .NOT_IN => "NOT IN"

/-- A scalar literal as produced by `_parse_single_value`.  The numeric value
of a float literal is not modelled (IEEE doubles are outside the embedding);
the literal's source text is retained instead.  No claim consumes it. -/
inductive PyScalar where
  | pstr (s : String)
  | pbool (b : Bool)
  | pint (n : Int)
  | pfloat (lit : String)
deriving DecidableEq

/-- A parsed literal: a scalar, or (for `IN`/`NOT IN`) a list of scalars. -/
inductive PyValue where
  | scalar (v : PyScalar)
  | list (vs : List PyScalar)
deriving DecidableEq

/-- The raise sites of `TraceFilterParser`, one constructor per distinct
`MlflowException(..., INVALID_PARAMETER_VALUE)` in the source. -/
inductive ParseErr where
  | invalidCondition (clause : String)
  | invalidNumericOperator (field : String)
  | invalidTagOperator (op : FilterOperator)
  | invalidSpanField (field : String)
  | invalidSpanContentOperator
  | invalidCountExpression (expr : String)
deriving DecidableEq

/-- Case-insensitive literal token match, returning the remainder. -/
def tokMatchCI : List Char → List Char → Option (List Char)
  | [], cs => some cs
  | _ :: _, [] => none
  | t :: ts, c :: cs => if c.toUpper = t then tokMatchCI ts cs else none

/-- `\s*(.+)` on the remainder after an operator: greedy whitespace skip,
then a nonempty newline-free run; if everything is whitespace, the greedy
`\s*` backtracks one character at a time, so the match (when it exists) is
the last single non-newline character. -/
def dotPlus (rem : List Char) : Option (List Char) :=
  let v := rem.dropWhile Char.isWhitespace
  if v ≠ [] then some (v.takeWhile (fun c => c ≠ '\n'))
  else
    match rem.reverse.dropWhile (fun c => c = '\n') with
    | c :: _ => some [c]
    | [] => none

/-- The operator alternation of the clause regex, in source order. -/
def opsOrder : List (List Char × FilterOperator) :=
  [("!=".toList, .NEQ), (">=".toList, .GTE), (("<=").toList, .LTE),
   ((">").toList, .GT), (("<").toList, .LT), (("=").toList, .EQ),
   ("LIKE".toList, .LIKE), ("ILIKE".toList, .ILIKE),
   ("NOT IN".toList, .NOT_IN), ("IN".toList, .IN)]

/-- The operator alternation of the count-expression regex, in source order. -/
def countOpsOrder : List (List Char × FilterOperator) :=
  [(">=".toList, .GTE), (("<=").toList, .LTE), ("!=".toList, .NEQ),
   ((">").toList, .GT), (("<").toList, .LT), (("=").toList, .EQ)]

/-- Try each operator alternative in order at the current position; on a
token match, `\s*(.+)` must also succeed, otherwise the alternation
backtracks to the next alternative. -/
def tryOpsFrom : List (List Char × FilterOperator) → List Char →
    Option (FilterOperator × List Char)
  | [], _ => none
  | (tok, op) :: rest, cs =>
    match tokMatchCI tok cs with
    | some rem =>
      match dotPlus rem with
      | some v => some (op, v)
      | none => tryOpsFrom rest cs
    | none => tryOpsFrom rest cs

/-- `\s*` then the operator alternation (no operator begins with
whitespace, so the greedy whitespace skip is exact). -/
def tryOps (cs : List Char) : Option (FilterOperator × List Char) :=
  tryOpsFrom opsOrder (cs.dropWhile Char.isWhitespace)

/-- Backtracking over the greedy group 1 (`[^\s]+`): split points from the
longest non-whitespace prefix down to length 1. -/
def findClauseFrom (t : List Char) : Nat → Option (List Char × FilterOperator × List Char)
  | 0 => none
  | k + 1 =>
    match tryOps (t.drop (k + 1)) with
    | some (op, v) => some (t.take (k + 1), op, v)
    | none => findClauseFrom t k

/-- The clause regex `([^\s]+)\s*(op)\s*(.+)` as (field, operator, value). -/
def findClause (t : List Char) : Option (List Char × FilterOperator × List Char) :=
  findClauseFrom t (t.takeWhile (fun c => ¬ c.isWhitespace)).length

/-- The lazy group of `count\((.*?)\)\s*(op)\s*(.+)`: scan left to right,
completing at the first `)` whose suffix matches; on failure the lazy group
extends through the `)`.  The group cannot cross a newline (`.` excludes it). -/
def countScan (acc : List Char) : List Char → Option (List Char × FilterOperator × List Char)
  | [] => none
  | c :: cs =>
    if c = '\n' then none
    else if c = ')' then
      match tryOpsFrom countOpsOrder (cs.dropWhile Char.isWhitespace) with
      | some (op, v) => some (acc.reverse, op, v)
      | none => countScan (c :: acc) cs
    else countScan (c :: acc) cs

/-- `_parse_single_value`. -/
def parseSingleValue (cs0 : List Char) : PyScalar :=
  let v := pyStrip cs0
  if v ≠ [] ∧ ((v.head? = some '"' ∧ v.getLast? = some '"') ∨
               (v.head? = some '\'' ∧ v.getLast? = some '\'')) then
    .pstr ((v.drop 1).dropLast).asString
  else
    let low := (v.map Char.toLower).asString
    if low = "true" then .pbool true
    else if low = "false" then .pbool false
    else if v.contains '.' then
      if pyFloatOk v.asString then .pfloat v.asString else .pstr v.asString
    else
      match pyIntParse v with
      | some m => .pint m
      | none => .pstr v.asString

/-- `_parse_value`: `IN`/`NOT IN` strip one optional pair of parentheses and
split on commas (Python `split(',')`, so an empty body still yields one
empty item); other operators parse a single scalar. -/
def parseValue (cs : List Char) (op : FilterOperator) : PyValue :=
  let v := pyStrip cs
  if op = .IN ∨ op = .NOT_IN then
    let v2 := if v.head? = some '(' ∧ v.getLast? = some ')' then (v.drop 1).dropLast else v
    .list ((v2.splitOn ',').map fun item => parseSingleValue (pyStrip item))
  else .scalar (parseSingleValue v)

/-- `_get_param_name`: `f"param_{self.param_counter}"`. -/
def paramName (n : Nat) : String := "param_" ++ Nat.repr n

def NUMERIC_OPERATORS : List FilterOperator := [.EQ, .NEQ, .GT, .GTE, .LT, .LTE]

def STRING_OPERATORS : List FilterOperator := [.EQ, .NEQ, .LIKE, .ILIKE, .IN, .NOT_IN]

def TAG_OPERATORS : List FilterOperator := [.EQ, .NEQ]

def STRING_MAPPED_FIELDS : List String := ["name"]

def SEARCH_KEY_TO_TAG : List (String × String) := [("name", "mlflow.traceName")]

def SEARCH_KEY_TO_METADATA : List (String × String) := [("run_id", "mlflow.sourceRun")]

/-- The `SEARCH_KEY_TO_ATTRIBUTE` alias map of `_generate_attribute_condition`. -/
def attributeAlias (field : String) : String :=
  if field = "timestamp" then "timestamp_ms"
  else if field = "execution_time" then "execution_time_ms"
  else field

/-- The `column_map` of `_generate_attribute_condition`. -/
def columnMap (field : String) : String :=
  if field = "request_id" then "trace_id"
  else if field = "timestamp_ms" then "request_time"
  else if field = "execution_time_ms" then "execution_duration_ms"
  else if field = "status" then "state"
  else field

/-- The per-element parameter allocation of the `IN`/`NOT IN` branches of
`_generate_attribute_condition`: placeholders, bindings, next counter. -/
def inParamNames : Nat → List PyScalar → (List String × List (String × PyValue) × Nat)
  | n, [] => ([], [], n)
  | n, v :: vs =>
    let rest := inParamNames (n + 1) vs
    ((":" ++ paramName n) :: rest.1, (paramName n, PyValue.scalar v) :: rest.2.1, rest.2.2)

/-- `_generate_attribute_condition`.  Note that the source allocates
`param_name` (index `n`) before branching, so the `IN`/`NOT IN` branches
skip that index and bind one fresh name per element. -/
def generate_attribute_condition (field0 : String) (op : FilterOperator)
    (value : PyValue) (n : Nat) : Except ParseErr (String × List (String × PyValue) × Nat) :=
  let field := attributeAlias field0
  let column := columnMap field
  if (field = "timestamp_ms" ∨ field = "execution_time_ms") ∧ op ∉ NUMERIC_OPERATORS then
    .error (.invalidNumericOperator field)
  else
    let asList : PyValue → List PyScalar := fun v =>
      match v with
      | .list vs => vs
      | .scalar s => [s]   -- unreachable from `parse`: `_parse_value` always yields a list here
    if op = .IN then
      let r := inParamNames (n + 1) (asList value)
      .ok (column ++ " IN (" ++ String.intercalate ", " r.1 ++ ")", r.2.1, r.2.2)
    else if op = .NOT_IN then
      let r := inParamNames (n + 1) (asList value)
      .ok (column ++ " NOT IN (" ++ String.intercalate ", " r.1 ++ ")", r.2.1, r.2.2)
    else
      .ok (column ++ " " ++ opText op ++ " :" ++ paramName n, [(paramName n, value)], n + 1)

/-- `_generate_tag_condition`.  The `use_key` flag changes nothing in the
emitted text (both source branches build the same f-string). -/
def generate_tag_condition (tag_key : String) (op : FilterOperator) (value : PyValue)
    (_use_key : Bool) (allow_string_ops : Bool) (n : Nat) :
    Except ParseErr (String × List (String × PyValue) × Nat) :=
  let allowed := if allow_string_ops then STRING_OPERATORS else TAG_OPERATORS
  if op ∉ allowed then .error (.invalidTagOperator op)
  else
    .ok ("tags['" ++ tag_key ++ "'] " ++ opText op ++ " :" ++ paramName n,
         [(paramName n, value)], n + 1)

/-- `_generate_metadata_condition`. -/
def generate_metadata_condition (metadata_key : String) (op : FilterOperator)
    (value : PyValue) (_use_key : Bool) (n : Nat) :
    Except ParseErr (String × List (String × PyValue) × Nat) :=
  .ok ("trace_metadata['" ++ metadata_key ++ "'] " ++ opText op ++ " :" ++ paramName n,
       [(paramName n, value)], n + 1)

/-- `_generate_feedback_condition`. -/
def generate_feedback_condition (feedback_name : String) (op : FilterOperator)
    (value : PyValue) (n : Nat) : Except ParseErr (String × List (String × PyValue) × Nat) :=
  .ok ("feedback." ++ feedback_name ++ " " ++ opText op ++ " :" ++ paramName n,
       [(paramName n, value)], n + 1)

/-- `_generate_span_condition`. -/
def generate_span_condition (span_field : String) (op : FilterOperator)
    (value : PyValue) (n : Nat) : Except ParseErr (String × List (String × PyValue) × Nat) :=
  if ¬ (span_field = "type" ∨ span_field = "name" ∨ span_field = "status" ∨
        span_field = "content") then
    .error (.invalidSpanField span_field)
  else if span_field = "content" ∧ ¬ (op = .LIKE ∨ op = .ILIKE) then
    .error .invalidSpanContentOperator
  else
    .ok ("span_" ++ span_field ++ " " ++ opText op ++ " :" ++ paramName n,
         [(paramName n, value)], n + 1)

/-- `.strip('`"')` applied to the raw field text of group 1. -/
def stripBQ (cs : List Char) : String :=
  (((cs.dropWhile fun c => c = '`' ∨ c = '"').reverse.dropWhile
      fun c => c = '`' ∨ c = '"').reverse).asString

/-- Python rendering of the inner condition inside `f"COUNT({inner_sql}) ..."`;
`None` renders as the text `"None"`. -/
def condStr : Option String → String
  | none => "None"
  | some c => c

theorem countScan_length (rest : List Char) : ∀ acc inner op v,
    countScan acc rest = some (inner, op, v) → inner.length + 1 ≤ acc.length + rest.length := by
  induction rest with
  | nil => intro acc inner op v h; simp [countScan] at h
  | cons c cs ih =>
    intro acc inner op v h
    simp only [countScan] at h
    by_cases hnl : c = '\n'
    · simp [hnl] at h
    · simp only [hnl, if_false] at h
      by_cases hp : c = ')'
      · simp only [hp, if_true] at h
        cases hops : tryOpsFrom countOpsOrder (cs.dropWhile Char.isWhitespace) with
        | none =>
          rw [hops] at h
          have := ih _ _ _ _ h
          simp only [List.length_cons] at this ⊢
          omega
        | some r =>
          obtain ⟨op2, v2⟩ := r
          rw [hops] at h
          simp only [Option.some.injEq, Prod.mk.injEq] at h
          obtain ⟨h1, -, -⟩ := h
          subst h1
          simp only [List.length_reverse, List.length_cons]
          omega
      · simp only [hp, if_false] at h
        have := ih _ _ _ _ h
        simp only [List.length_cons] at this ⊢
        omega

theorem pyStrip_length_le (cs : List Char) : (pyStrip cs).length ≤ cs.length := by
  unfold pyStrip
  calc ((cs.dropWhile Char.isWhitespace).reverse.dropWhile Char.isWhitespace).reverse.length
      = ((cs.dropWhile Char.isWhitespace).reverse.dropWhile Char.isWhitespace).length := by
        rw [List.length_reverse]
    _ ≤ (cs.dropWhile Char.isWhitespace).reverse.length :=
        (List.dropWhile_sublist _).length_le
    _ = (cs.dropWhile Char.isWhitespace).length := by rw [List.length_reverse]
    _ ≤ cs.length := (List.dropWhile_sublist _).length_le

/-- `_parse_condition` (and, in the `count(` branch, `_parse_count_expression`):
returns the optional condition text, the parameter bindings of this clause
in insertion order, and the advanced parameter counter. -/
def parseCondition (cs : List Char) (n : Nat) :
    Except ParseErr ((Option String × List (String × PyValue)) × Nat) :=
  let t := pyStrip cs
  if t = [] then .ok ((none, []), n)
  else if t.take 6 = "count(".toList then
    match hscan : countScan [] (t.drop 6) with
    | none => .error (.invalidCountExpression t.asString)
    | some (inner, cop, rhs) =>
      let count_value := parseSingleValue rhs
      match parseCondition inner n with
      | .error e => .error e
      | .ok ((innerCond, innerParams), n1) =>
        .ok ((some ("COUNT(" ++ condStr innerCond ++ ") " ++ opText cop ++ " :" ++ paramName n1),
              innerParams ++ [(paramName n1, PyValue.scalar count_value)]), n1 + 1)
  else
    match findClause t with
    | none => .error (.invalidCondition t.asString)
    | some (fieldRaw, op, valueCs) =>
      let field := stripBQ fieldRaw
      let value := parseValue valueCs op
      let lift : Except ParseErr (String × List (String × PyValue) × Nat) →
          Except ParseErr ((Option String × List (String × PyValue)) × Nat) := fun r =>
        r.map fun x => ((some x.1, x.2.1), x.2.2)
      if pyStartsWith field "tags." then
        lift (generate_tag_condition (pyDrop field 5) op value false false n)
      else if pyStartsWith field "metadata." then
        lift (generate_metadata_condition (pyDrop field 9) op value false n)
      else if pyStartsWith field "feedback." then
        lift (generate_feedback_condition (pyDrop field 9) op value n)
      else if pyStartsWith field "span." then
        lift (generate_span_condition (pyDrop field 5) op value n)
      else
        match (SEARCH_KEY_TO_TAG.lookup field : Option String) with
        | some tagKey =>
          if field ∈ STRING_MAPPED_FIELDS then
            lift (generate_tag_condition tagKey op value true true n)
          else
            lift (generate_tag_condition tagKey op value true false n)
        | none =>
          match (SEARCH_KEY_TO_METADATA.lookup field : Option String) with
          | some mkey => lift (generate_metadata_condition mkey op value true n)
          | none => lift (generate_attribute_condition field op value n)
termination_by cs.length
decreasing_by
  have h1 := countScan_length (pyStrip cs |>.drop 6) [] inner cop rhs hscan
  have h2 : (pyStrip cs).length ≤ cs.length := pyStrip_length_le cs
  simp only [List.length_nil, List.length_drop] at h1
  omega

/-- The 4-character lookahead `filter_string[i:i+4].upper() == ' AND'`. -/
def matchesAnd : List Char → Bool
  | ' ' :: a :: m :: d :: _ => a.toUpper == 'A' && m.toUpper == 'N' && d.toUpper == 'D'
  | _ => false

/-- `_split_by_and`: single pass with quote state (backslash-escapable,
checked against the previous character), parenthesis depth, and a depth-zero
case-insensitive `" AND"` split.  `current` is accumulated reversed.  The
`fuel` argument only bounds the recursion; every step consumes at least one
character, so fuel equal to the input length never runs out. -/
def splitByAndAux : Nat → List Char → Option Char → Option Char → Int → List Char →
    List String → List String
  | _, [], _, _, _, current, parts =>
    if current ≠ [] then parts ++ [(pyStrip current.reverse).asString] else parts
  | 0, _ :: _, _, _, _, current, parts =>
    if current ≠ [] then parts ++ [(pyStrip current.reverse).asString] else parts
  | fuel + 1, c :: rest, prev, inQ, depth, current, parts =>
    if (c = '"' ∨ c = '\'') ∧ prev ≠ some '\\' then
      match inQ with
      | none => splitByAndAux fuel rest (some c) (some c) depth (c :: current) parts
      | some q =>
        if c = q then splitByAndAux fuel rest (some c) none depth (c :: current) parts
        else splitByAndAux fuel rest (some c) (some q) depth (c :: current) parts
    else if inQ = none then
      if c = '(' then splitByAndAux fuel rest (some c) none (depth + 1) (c :: current) parts
      else if c = ')' then splitByAndAux fuel rest (some c) none (depth - 1) (c :: current) parts
      else if depth = 0 ∧ matchesAnd (c :: rest) then
        splitByAndAux fuel (rest.drop 3) (rest.take 3).getLast? none 0 []
          (parts ++ [(pyStrip current.reverse).asString])
      else splitByAndAux fuel rest (some c) none depth (c :: current) parts
    else splitByAndAux fuel rest (some c) inQ depth (c :: current) parts

/-- `_split_by_and(filter_string)`. -/
def splitByAnd (s : String) : List String :=
  splitByAndAux s.toList.length s.toList none none 0 [] []

/-- The clause loop of `parse`: thread the parameter counter, collect
conditions in clause order, and merge parameter bindings; a clause whose
condition is `None` (or falsy) contributes nothing. -/
def parseClauses : Nat → List String → Except ParseErr (List String × List (String × PyValue) × Nat)
  | n, [] => .ok ([], [], n)
  | n, p :: ps =>
    match parseCondition (pyStrip p.toList) n with
    | .error e => .error e
    | .ok ((copt, prms), n1) =>
      match parseClauses n1 ps with
      | .error e => .error e
      | .ok (conds, params, n2) =>
        match copt with
        | some c =>
          if c ≠ "" then .ok (c :: conds, prms ++ params, n2)
          else .ok (conds, params, n2)
        | none => .ok (conds, params, n2)

/-- `TraceFilterParser(...).parse(filter_string)` with the counter starting
at 0 (a fresh instance), as every caller in the repository uses it. -/
def filterParse (filter_string : String) :
    Except ParseErr (List String × List (String × PyValue)) :=
  if filter_string = "" then .ok ([], [])
  else
    match parseClauses 0 (splitByAnd filter_string) with
    | .error e => .error e
    | .ok (conds, params, _) => .ok (conds, params)

/-! ### Clause shapes

The shape of a clause is everything `_parse_condition` feeds into the
emitted condition text other than fresh parameter names: the (stripped)
field text, the operator, and — only for `IN`/`NOT IN` — the number of
comma-separated items of the literal.  Two clauses of equal shape differ at
most in literal content. -/

/-- The element count `_parse_value` produces for this operator and value text. -/
def arityOf (op : FilterOperator) (valueCs : List Char) : Nat :=
  if op = .IN ∨ op = .NOT_IN then
    let v := pyStrip valueCs
    let v2 := if v.head? = some '(' ∧ v.getLast? = some ')' then (v.drop 1).dropLast else v
    (v2.splitOn ',').length
  else 1

inductive ClauseShape where
  | empty
  | simple (field : String) (op : FilterOperator) (arity : Nat)
  | cnt (inner : ClauseShape) (op : FilterOperator)
deriving DecidableEq

/-- The shape of a clause, when its syntax is accepted by the regexes. -/
def shapeOf (cs : List Char) : Option ClauseShape :=
  let t := pyStrip cs
  if t = [] then some .empty
  else if t.take 6 = "count(".toList then
    match hscan : countScan [] (t.drop 6) with
    | none => none
    | some (inner, cop, _) => (shapeOf inner).map (.cnt · cop)
  else
    match findClause t with
    | none => none
    | some (fieldRaw, op, valueCs) => some (.simple (stripBQ fieldRaw) op (arityOf op valueCs))
termination_by cs.length
decreasing_by
  have h1 := countScan_length (pyStrip cs |>.drop 6) [] inner cop _ hscan
  have h2 : (pyStrip cs).length ≤ cs.length := pyStrip_length_le cs
  simp only [List.length_nil, List.length_drop] at h1
  omega

/-! ### Injectivity of `Nat.repr`, hence of `paramName`

`f"param_{n}"` generates `"param_" ++ Nat.repr n`; distinct counters give
distinct names.  Lean core's `Nat.repr` builds the digit list through a
fuelled loop (`Nat.toDigitsCore`), so we relate it to a direct recursion
and evaluate that back to the number. -/

def natDigits (n : Nat) : List Char :=
  if n < 10 then [Nat.digitChar n]
  else natDigits (n / 10) ++ [Nat.digitChar (n % 10)]
termination_by n
decreasing_by
  exact Nat.div_lt_self (by omega) (by omega)

theorem toDigitsCore_eq_natDigits (fuel : Nat) : ∀ n acc, n ≤ fuel →
    Nat.toDigitsCore 10 (fuel + 1) n acc = natDigits n ++ acc := by
  induction fuel with
  | zero =>
    intro n acc h
    have hn : n = 0 := by omega
    subst hn
    rw [natDigits]
    simp [Nat.toDigitsCore]
  | succ fuel ih =>
    intro n acc h
    by_cases h10 : n / 10 = 0
    · have hn : n < 10 := by omega
      have hm : n % 10 = n := Nat.mod_eq_of_lt hn
      rw [Nat.toDigitsCore, natDigits]
      simp [h10, hn, hm]
    · have hn : ¬ n < 10 := by
        intro hlt
        exact h10 (Nat.div_eq_of_lt hlt)
      have hdle : n / 10 ≤ fuel := by
        have : n / 10 < n := Nat.div_lt_self (by omega) (by norm_num)
        omega
      rw [Nat.toDigitsCore]
      simp only [h10, if_false]
      rw [ih (n / 10) _ hdle]
      conv_rhs => rw [natDigits]
      rw [if_neg hn, List.append_assoc, List.singleton_append]

def digitVal (c : Char) : Nat := c.toNat - '0'.toNat

def evalDigits (cs : List Char) : Nat :=
  cs.foldl (fun a c => a * 10 + digitVal c) 0

theorem digitVal_digitChar (d : Nat) (h : d < 10) : digitVal (Nat.digitChar d) = d := by
  interval_cases d <;> rfl

theorem evalDigits_natDigits (n : Nat) : evalDigits (natDigits n) = n := by
  induction n using Nat.strong_induction_on with
  | _ n ih =>
    by_cases h : n < 10
    · rw [natDigits, if_pos h]
      show List.foldl _ 0 [Nat.digitChar n] = n
      simp [digitVal_digitChar n h]
    · rw [natDigits, if_neg h]
      have hstep : evalDigits (natDigits (n / 10) ++ [Nat.digitChar (n % 10)])
          = evalDigits (natDigits (n / 10)) * 10 + digitVal (Nat.digitChar (n % 10)) := by
        simp [evalDigits, List.foldl_append]
      rw [hstep, ih (n / 10) (Nat.div_lt_self (by omega) (by norm_num)),
          digitVal_digitChar _ (Nat.mod_lt n (by norm_num))]
      omega

theorem natRepr_eq_natDigits (n : Nat) : Nat.repr n = (natDigits n).asString := by
  show (Nat.toDigits 10 n).asString = (natDigits n).asString
  rw [Nat.toDigits, toDigitsCore_eq_natDigits n n [] (le_refl n), List.append_nil]

theorem natRepr_injective : Function.Injective Nat.repr := by
  intro a b h
  rw [natRepr_eq_natDigits, natRepr_eq_natDigits] at h
  have hdata : natDigits a = natDigits b := congrArg String.data h
  have := congrArg evalDigits hdata
  rwa [evalDigits_natDigits, evalDigits_natDigits] at this

theorem paramName_injective : Function.Injective paramName := by
  intro a b h
  apply natRepr_injective
  have h2 := congrArg String.data h
  simp only [paramName, String.data_append] at h2
  exact String.ext (List.append_cancel_left h2)

/-! ## Dimensions and NPMI (`dimensions.py`)

The SQLAlchemy queries touch two tables, modelled as explicit row lists.
Python sets of trace ids are modelled as first-occurrence-deduplicated
lists (only cardinality and membership are ever consumed); SQL `GROUP BY`
output order, unspecified by SQL, is modelled as first-occurrence order. -/

structure TraceRow where
  request_id : String
  experiment_id : String
  timestamp_ms : Int
  status : String
deriving DecidableEq

structure TagRow where
  request_id : String
  key : String
  value : String
deriving DecidableEq

structure Db where
  traces : List TraceRow
  tags : List TagRow
deriving DecidableEq

/-- Python truthiness of the optional `start_time`/`end_time` arguments:
`if start_time:` skips the filter for `None` and for `0`. -/
def pyTruthyInt : Option Int → Bool
  | none => false
  | some v => v ≠ 0

/-- The `base_query`: experiment membership plus the optional time filters. -/
def baseTraces (db : Db) (experiment_ids : List String)
    (start_time end_time : Option Int) : List TraceRow :=
  db.traces.filter fun t =>
    experiment_ids.contains t.experiment_id
    && (if pyTruthyInt start_time then decide ((start_time.getD 0) ≤ t.timestamp_ms) else true)
    && (if pyTruthyInt end_time then decide (t.timestamp_ms ≤ (end_time.getD 0)) else true)

/-- A dimension value: tag paths carry strings, `has_error` carries a bool. -/
inductive DimValue where
  | str (s : String)
  | bool (b : Bool)
deriving DecidableEq

/-- Python truthiness of an optional dimension value. -/
def pyTruthyDV : Option DimValue → Bool
  | none => false
  | some (.str s) => s ≠ ""
  | some (.bool b) => b

/-- Python `str()` of a dimension value (`str(True) == "True"`). -/
def pyStrDV : DimValue → String
  | .str s => s
  | .bool b => if b then "True" else "False"

/-- A dimension-specification dict, with the `.get` defaults of the source
(`type`/`name`/`key` default to `''`, `value` to `None`). -/
structure DimSpec where
  dtype : String
  name : String
  key : String
  value : Option DimValue
deriving DecidableEq

/-- `get_traces_for_dimension(session, base_query, dimension)`: the set of
trace ids of the base population matching the dimension, as a deduplicated
list.  The SQL comparison of the (non-null, string) `status` column with a
`None`/bool dimension value never matches. -/
def get_traces_for_dimension (db : Db) (base : List TraceRow) (dim : DimSpec) :
    List String :=
  if dim.dtype = "tag" ∨ pyStartsWith dim.name "tag." then
    let tag_key := if pyStartsWith dim.name "tag." then pyReplace dim.name "tag." "" else dim.key
    ((base.filter fun t => db.tags.any fun g =>
        g.request_id == t.request_id && g.key == tag_key
        && (match dim.value with
            | none => true
            | some v => g.value == pyStrDV v)).map (·.request_id)).dedup
  else if dim.dtype = "span_attribute" ∨ pyStartsWith dim.name "span_attribute." then
    []
  else if dim.name = "trace.status" then
    ((base.filter fun t =>
        match dim.value with
        | some (.str s) => t.status == s
        | _ => false).map (·.request_id)).dedup
  else if dim.name = "trace.has_error" then
    if pyTruthyDV dim.value || dim.value == some (.str "true") then
      ((base.filter fun t => t.status == "ERROR").map (·.request_id)).dedup
    else
      ((base.filter fun t => t.status != "ERROR").map (·.request_id)).dedup
  else []

/-- Python substring membership `needle in hay`. -/
def listHasSub (needle : String) : List Char → Bool
  | [] => needle.toList.isPrefixOf []
  | c :: t => if needle.toList.isPrefixOf (c :: t) then true else listHasSub needle t

/-- `should_filter_tag(tag_key)` (`tag_utils.py`). -/
def should_filter_tag (tag_key : String) : Bool :=
  pyStartsWith tag_key "mlflow" || listHasSub "tag.mlflow" tag_key.toList

structure DimensionParameter where
  pname : String
  ptype : String
  required : Bool
deriving DecidableEq

structure Dimension where
  name : String
  dtype : String
  data_type : String
  parameters : List DimensionParameter
deriving DecidableEq

/-- `discover_dimensions(store, experiment_ids, start_time, end_time)`:
tag dimensions (built-in mlflow tags excluded, data type inferred from up
to 10 sampled values) followed by the fixed built-in dimensions. -/
def discover_dimensions (db : Db) (experiment_ids : List String)
    (start_time end_time : Option Int) : List Dimension :=
  let base := baseTraces db experiment_ids start_time end_time
  let trace_ids := base.map (·.request_id)
  if trace_ids = [] then []
  else
    let keys := ((db.tags.filter fun g => trace_ids.contains g.request_id).map (·.key)).dedup
    let tagDims := keys.filterMap fun k =>
      if should_filter_tag k then none
      else
        let samples := ((db.tags.filter fun g =>
            trace_ids.contains g.request_id && g.key == k).map (·.value)).take 10
        let dt := infer_data_type (samples.map some)
        some ⟨"tag." ++ k, "tag", dt,
              [⟨"key", "string", true⟩, ⟨"value", dt, true⟩]⟩
    tagDims ++
      [⟨"trace.status", "builtin", "string", [⟨"value", "string", true⟩]⟩,
       ⟨"trace.has_error", "builtin", "boolean", []⟩,
       ⟨"trace.latency_bucket", "builtin", "string", [⟨"buckets", "array", false⟩]⟩]

/-- `get_correlation_strength(npmi_score)` (`dimensions.py`, lines 315-334). -/
noncomputable def get_correlation_strength (npmi_score : ℝ) : String :=
  if 0.7 ≤ |npmi_score| then "Strong"
  else if 0.4 ≤ |npmi_score| then "Moderate"
  else if 0.1 ≤ |npmi_score| then "Weak"
  else "None"

/-- The NPMI arithmetic of `calculate_npmi_score` (`dimensions.py`, lines
217-236), factored over the four counts; `math.log` is the natural log. -/
noncomputable def npmiFromCounts (total dim1_count dim2_count intersection_count : ℕ) : ℝ :=
  if dim1_count = 0 ∨ dim2_count = 0 ∨ intersection_count = 0 then 0
  else
    let p1 : ℝ := (dim1_count : ℝ) / (total : ℝ)
    let p2 : ℝ := (dim2_count : ℝ) / (total : ℝ)
    let pj : ℝ := (intersection_count : ℝ) / (total : ℝ)
    if pj = 1 then 1
    else Real.log (pj / (p1 * p2)) / (- Real.log pj)

/-- The result dict of `calculate_npmi_score` (the echoed dimension
name/value entries are omitted; counts and correlation are kept). -/
structure NpmiScoreResult where
  dim1_count : ℕ
  dim2_count : ℕ
  intersection_count : ℕ
  npmi_score : ℝ
  strength : String

/-- `calculate_npmi_score(store, experiment_ids, dimension1, dimension2,
start_time, end_time)` (`dimensions.py`, lines 161-261). -/
noncomputable def calculate_npmi_score (db : Db) (experiment_ids : List String)
    (dimension1 dimension2 : DimSpec) (start_time end_time : Option Int) :
    NpmiScoreResult :=
  let base := baseTraces db experiment_ids start_time end_time
  let total_count := base.length
  if total_count = 0 then ⟨0, 0, 0, 0, "None"⟩
  else
    let s1 := get_traces_for_dimension db base dimension1
    let s2 := get_traces_for_dimension db base dimension2
    let intersection_count := (s1.filter (· ∈ s2)).length
    let npmi := npmiFromCounts total_count s1.length s2.length intersection_count
    ⟨s1.length, s2.length, intersection_count, npmi, get_correlation_strength npmi⟩

/-- `parse_filter_string(filter_string)` (`dimensions.py`, lines 457-504). -/
def parse_filter_string (filter_string : String) : DimSpec :=
  let defaultSpec : DimSpec := ⟨"builtin", "trace.status", "", some (.str "ERROR")⟩
  if filter_string.toList.contains ':' then
    let key := (filter_string.toList.takeWhile (· ≠ ':')).asString
    let value := (filter_string.toList.drop (key.length + 1)).asString
    if key = "status" then ⟨"builtin", "trace.status", "", some (.str value)⟩
    else if key = "has_error" then
      ⟨"builtin", "trace.has_error", "", some (.bool (pyLower value = "true"))⟩
    else if pyStartsWith key "tag." then
      ⟨"tag", key, pyReplace key "tag." "", some (.str value)⟩
    else if pyStartsWith key "span_attribute." then
      ⟨"span_attribute", key, pyReplace key "span_attribute." "", some (.str value)⟩
    else defaultSpec
  else defaultSpec

/-- One element of the `correlations` list of `get_correlations_for_filter`. -/
structure CorrEntry where
  dimension : String
  value : String
  npmi_score : ℝ
  trace_count : ℕ
  percentage_of_slice : ℝ
  percentage_of_total : ℝ
  strength : String

/-- Stable insertion sort by descending count; SQL leaves the order of
equal-count groups unspecified, so the model fixes first-occurrence order. -/
def insertByCount (x : String × ℕ) : List (String × ℕ) → List (String × ℕ)
  | [] => [x]
  | y :: ys => if y.2 ≤ x.2 then x :: y :: ys else y :: insertByCount x ys

def sortByCountDesc : List (String × ℕ) → List (String × ℕ)
  | [] => []
  | x :: xs => insertByCount x (sortByCountDesc xs)

/-- The `values_query` of `get_correlations_for_filter`: tag values among
the filtered traces, with row counts, ordered by count descending (ties in
first-occurrence order) and limited to 20. -/
def tagValueCounts (db : Db) (filter_traces : List String)
    (tag_key : String) : List (String × ℕ) :=
  let rows := db.tags.filter fun g =>
    filter_traces.contains g.request_id && g.key == tag_key
  let vals := (rows.map (·.value)).dedup
  (sortByCountDesc (vals.map fun v =>
    (v, (rows.filter fun g => g.value == v).length))).take 20

/-- The per-dimension inner loop of `get_correlations_for_filter`
(`dimensions.py`, lines 398-447): only `tag`-typed dimensions contribute;
falsy (empty) tag values are skipped; an entry is produced only when the
intersection is nonempty and the three probabilities are positive. -/
noncomputable def corrEntriesForDim (db : Db) (base : List TraceRow)
    (filter_traces : List String) (total_count filter_count : ℕ)
    (dim : Dimension) : List CorrEntry :=
  if dim.dtype = "tag" then
    let tag_key := pyReplace dim.name "tag." ""
    (tagValueCounts db filter_traces tag_key).flatMap fun vr =>
      if vr.1 ≠ "" then
        let dim_spec : DimSpec := ⟨"tag", dim.name, tag_key, some (.str vr.1)⟩
        let dim_traces := get_traces_for_dimension db base dim_spec
        let intersection_count := (filter_traces.filter (· ∈ dim_traces)).length
        if 0 < intersection_count then
          let p_filter : ℝ := (filter_count : ℝ) / (total_count : ℝ)
          let p_dim : ℝ := (dim_traces.length : ℝ) / (total_count : ℝ)
          let p_intersection : ℝ := (intersection_count : ℝ) / (total_count : ℝ)
          if 0 < p_filter ∧ 0 < p_dim ∧ 0 < p_intersection then
            let pmi := Real.log (p_intersection / (p_filter * p_dim))
            let npmi := if p_intersection < 1 then pmi / (- Real.log p_intersection) else 1
            [⟨dim.name, vr.1, npmi, intersection_count,
              (intersection_count : ℝ) / (filter_count : ℝ) * 100,
              (intersection_count : ℝ) / (total_count : ℝ) * 100,
              get_correlation_strength npmi⟩]
          else []
        else []
      else []
  else []

/-- The `correlations` list of `get_correlations_for_filter` in discovery
order (before sorting and truncation); empty when the filter matches no
trace, mirroring the early `return []`. -/
noncomputable def corrList (db : Db) (experiment_ids : List String)
    (filter_string : String) (correlation_dimensions : List String)
    (start_time end_time : Option Int) : List CorrEntry :=
  let base_dimension := parse_filter_string filter_string
  let all_dimensions := discover_dimensions db experiment_ids start_time end_time
  let relevant := all_dimensions.filter fun d => correlation_dimensions.contains d.dtype
  let base := baseTraces db experiment_ids start_time end_time
  let total_count := base.length
  let filter_traces := get_traces_for_dimension db base base_dimension
  let filter_count := filter_traces.length
  if filter_count = 0 then []
  else relevant.flatMap (corrEntriesForDim db base filter_traces total_count filter_count)

/-- The comparison key of `correlations.sort(key=lambda x:
abs(x['npmi_score']), reverse=True)`; Python's sort is stable, which
`List.mergeSort` models exactly. -/
noncomputable def corrLe (a b : CorrEntry) : Bool :=
  decide (|b.npmi_score| ≤ |a.npmi_score|)

/-- `get_correlations_for_filter(store, experiment_ids, filter_string,
correlation_dimensions, start_time, end_time, limit)`
(`dimensions.py`, lines 337-454). -/
noncomputable def get_correlations_for_filter (db : Db) (experiment_ids : List String)
    (filter_string : String) (correlation_dimensions : List String)
    (start_time end_time : Option Int) (limit : ℕ) : List CorrEntry :=
  ((corrList db experiment_ids filter_string correlation_dimensions
      start_time end_time).mergeSort corrLe).take limit

/-! ## The SQL NPMI `CASE` expression
(`databricks_sql_store.py`, `calculate_trace_filter_correlation`,
lines 590-595).  `LOG2` is `Real.logb 2`. -/

noncomputable def sqlNpmi (total_count filter1_count filter2_count joint_count : ℕ) : ℝ :=
  let p1 : ℝ := (filter1_count : ℝ) / (total_count : ℝ)
  let p2 : ℝ := (filter2_count : ℝ) / (total_count : ℝ)
  let pj : ℝ := (joint_count : ℝ) / (total_count : ℝ)
  if joint_count = 0 then -1
  else if joint_count = filter1_count ∧ joint_count = filter2_count then 1
  else if pj = 0 then -1
  else Real.logb 2 (pj / (p1 * p2)) / (- Real.logb 2 pj)

/-! ## Bucketing lemmas -/

theorem fdiv_mul_le_self (a : Int) (b : Int) (hb : 0 < b) : a.fdiv b * b ≤ a := by
  rw [Int.fdiv_eq_ediv a (le_of_lt hb)]
  have h1 := Int.ediv_add_emod a b
  have h2 := Int.emod_nonneg a (by omega : b ≠ 0)
  have h3 : a / b * b = b * (a / b) := mul_comm _ _
  omega

theorem lt_fdiv_mul_add (a : Int) (b : Int) (hb : 0 < b) : a < a.fdiv b * b + b := by
  rw [Int.fdiv_eq_ediv a (le_of_lt hb)]
  have h1 := Int.ediv_add_emod a b
  have h2 := Int.emod_lt_of_pos a hb
  have h3 : a / b * b = b * (a / b) := mul_comm _ _
  omega

theorem fdiv_mul_cancel (q : Int) (b : Int) (hb : 0 < b) : (q * b).fdiv b = q := by
  rw [Int.fdiv_eq_ediv _ (le_of_lt hb)]
  exact Int.mul_ediv_cancel q (by omega)

/-- C6: for every timestamp the hour bucket equals
`floor(ts / 3_600_000) * 3_600_000` (independent of any timezone offset) and
brackets the timestamp from below within one hour; the day and week buckets
equal `floor((ts + offset_ms) / size) * size - offset_ms` with sizes
86_400_000 and 604_800_000. -/
theorem C6_bucket_values (ts offset_ms : Int) :
    get_time_bucket_value ts "hour" offset_ms = .ok (ts.fdiv 3600000 * 3600000)
    ∧ get_time_bucket_value ts "hour" offset_ms = get_time_bucket_value ts "hour" 0
    ∧ ts.fdiv 3600000 * 3600000 ≤ ts
    ∧ ts < ts.fdiv 3600000 * 3600000 + 3600000
    ∧ get_time_bucket_value ts "day" offset_ms
        = .ok ((ts + offset_ms).fdiv 86400000 * 86400000 - offset_ms)
    ∧ get_time_bucket_value ts "week" offset_ms
        = .ok ((ts + offset_ms).fdiv 604800000 * 604800000 - offset_ms) := by
  refine ⟨rfl, rfl, ?_, ?_, rfl, rfl⟩
  · exact fdiv_mul_le_self ts 3600000 (by norm_num)
  · exact lt_fdiv_mul_add ts 3600000 (by norm_num)

/-- C7: any granularity other than hour/day/week makes every bucketing
operation fail with the unsupported-granularity error, while an
unresolvable timezone (the offset lookup raises, modelled by `none`) is not
an error: the expression is built with `offset_ms = 0`. -/
theorem C7_granularity_error_timezone_fallback :
    (∀ g : String, g ≠ "hour" → g ≠ "day" → g ≠ "week" →
      (∀ ts off : Int, get_time_bucket_value ts g off = .error (.unsupported g))
      ∧ get_bucket_size_ms g = .error (.unsupported g)
      ∧ validate_time_bucket g = .error (.unsupported g)
      ∧ ∀ (tzOffsetMs : String → Option Int) (tz : Option String),
          get_time_bucket_expression tzOffsetMs g tz = .error (.unsupported g))
    ∧ (∀ (tzOffsetMs : String → Option Int) (tz : String) (g : String),
        tzOffsetMs tz = none → (g = "hour" ∨ g = "day" ∨ g = "week") →
        get_time_bucket_expression tzOffsetMs g (some tz) = .ok ⟨g, 0⟩) := by
  constructor
  · intro g h1 h2 h3
    refine ⟨?_, ?_, ?_, ?_⟩
    · intro ts off
      simp [get_time_bucket_value, h1, h2, h3]
    · simp [get_bucket_size_ms, h1, h2, h3]
    · simp [validate_time_bucket, h1, h2, h3]
    · intro oracle tz
      simp [get_time_bucket_expression, h1, h2, h3]
  · intro oracle tz g hnone hg
    have hoff : (if tz ≠ "" ∧ (g = "day" ∨ g = "week") then
        match oracle tz with
        | some o => o
        | none => 0
      else 0) = (0 : Int) := by
      by_cases hc : tz ≠ "" ∧ (g = "day" ∨ g = "week")
      · rw [if_pos hc, hnone]
      · rw [if_neg hc]
    rcases hg with hg | hg | hg <;>
      simp [get_time_bucket_expression, hg, hnone]

/-- C10: time bucketing is idempotent for each supported granularity and
every integer offset: re-bucketing a bucket value returns it unchanged. -/
theorem C10_bucket_idempotent (ts offset_ms : Int) :
    ((get_time_bucket_value ts "hour" offset_ms).bind fun v =>
        get_time_bucket_value v "hour" offset_ms)
      = get_time_bucket_value ts "hour" offset_ms
    ∧ ((get_time_bucket_value ts "day" offset_ms).bind fun v =>
        get_time_bucket_value v "day" offset_ms)
      = get_time_bucket_value ts "day" offset_ms
    ∧ ((get_time_bucket_value ts "week" offset_ms).bind fun v =>
        get_time_bucket_value v "week" offset_ms)
      = get_time_bucket_value ts "week" offset_ms := by
  refine ⟨?_, ?_, ?_⟩
  · show Except.ok ((ts.fdiv 3600000 * 3600000).fdiv 3600000 * 3600000)
        = Except.ok (ts.fdiv 3600000 * 3600000)
    rw [fdiv_mul_cancel _ _ (by norm_num)]
  · show Except.ok (((ts + offset_ms).fdiv 86400000 * 86400000 - offset_ms + offset_ms).fdiv
          86400000 * 86400000 - offset_ms)
        = Except.ok ((ts + offset_ms).fdiv 86400000 * 86400000 - offset_ms)
    rw [sub_add_cancel, fdiv_mul_cancel _ _ (by norm_num)]
  · show Except.ok (((ts + offset_ms).fdiv 604800000 * 604800000 - offset_ms + offset_ms).fdiv
          604800000 * 604800000 - offset_ms)
        = Except.ok ((ts + offset_ms).fdiv 604800000 * 604800000 - offset_ms)
    rw [sub_add_cancel, fdiv_mul_cancel _ _ (by norm_num)]

/-- C7 witness: the theorem applied at granularity `"month"` and an
unresolvable timezone. -/
theorem C7_granularity_error_timezone_fallback_witness :
    get_time_bucket_value 5 "month" 0 = .error (.unsupported "month")
    ∧ get_bucket_size_ms "month" = .error (.unsupported "month")
    ∧ get_time_bucket_expression (fun _ => none) "day" (some "Bad/Zone") = .ok ⟨"day", 0⟩ :=
  ⟨(C7_granularity_error_timezone_fallback.1 "month" (by decide) (by decide) (by decide)).1 5 0,
   (C7_granularity_error_timezone_fallback.1 "month" (by decide) (by decide) (by decide)).2.1,
   C7_granularity_error_timezone_fallback.2 (fun _ => none) "Bad/Zone" "day" rfl (Or.inr (Or.inl rfl))⟩

/-! ## Value typer: claims -/

/-- The typing rule exactly as the specification words it (for comparison
with the source's `infer_data_type`): Boolean when every non-null value is a
boolean token, else Numeric when every non-null value parses as a float,
else String; empty sample is String. -/
def infer_data_type_claim (values : List (Option String)) : String :=
  if values = [] then "string"
  else if (values.filterMap id).all (fun s => booleanTokens.contains (pyLower s)) then "boolean"
  else if (values.filterMap id).all (fun s => pyFloatOk s) then "numeric"
  else "string"

theorem all_option_iff (values : List (Option String)) (f : String → Bool) :
    (values.all fun v => match v with | none => true | some s => f s) = true
      ↔ ∀ s : String, some s ∈ values → f s = true := by
  rw [List.all_eq_true]
  constructor
  · intro h s hs
    exact h (some s) hs
  · intro h v hv
    cases v with
    | none => rfl
    | some s => exact h s hv

/-- C8 counterexample: on the one-element sample `[""]` the source infers
`"numeric"` (its numeric loop skips empty strings), while the claim's rule
— the empty string does not parse as a float — yields `"string"`. -/
theorem C8_counterexample :
    infer_data_type [some ""] = "numeric"
    ∧ infer_data_type_claim [some ""] = "string"
    ∧ pyFloatOk "" = false := by
  refine ⟨?_, ?_, ?_⟩ <;> decide

/-- C8 (amended): the rule cascade holds with one correction — the numeric
test is unanimous over non-null values that are also non-empty strings
(the source loop skips `""` as well as `None`). -/
theorem C8_amended_rule_cascade (values : List (Option String)) :
    (infer_data_type values = "boolean" ↔
      values ≠ [] ∧ ∀ s : String, some s ∈ values → pyLower s ∈ booleanTokens)
    ∧ (infer_data_type values = "numeric" ↔
      values ≠ [] ∧ ¬ (∀ s : String, some s ∈ values → pyLower s ∈ booleanTokens)
      ∧ ∀ s : String, some s ∈ values → s ≠ "" → pyFloatOk s)
    ∧ (infer_data_type values = "string" ↔
      values = [] ∨ (¬ (∀ s : String, some s ∈ values → pyLower s ∈ booleanTokens)
        ∧ ¬ (∀ s : String, some s ∈ values → s ≠ "" → pyFloatOk s))) := by
  have hb : (values.all fun v =>
        match v with
        | none => true
        | some s => booleanTokens.contains (pyLower s)) = true
      ↔ ∀ s : String, some s ∈ values → pyLower s ∈ booleanTokens := by
    rw [all_option_iff]
    constructor
    · intro h s hs
      exact List.elem_iff.mp (h s hs)
    · intro h s hs
      exact List.elem_iff.mpr (h s hs)
  have hn : (values.all fun v =>
        match v with
        | none => true
        | some s => if s = "" then true else pyFloatOk s) = true
      ↔ ∀ s : String, some s ∈ values → s ≠ "" → pyFloatOk s := by
    rw [all_option_iff]
    constructor
    · intro h s hs hne
      have := h s hs
      simpa [hne] using this
    · intro h s hs
      by_cases hse : s = ""
      · simp [hse]
      · simpa [hse] using h s hs hse
  unfold infer_data_type
  by_cases hemp : values = []
  · simp [hemp]
  · rw [if_neg hemp]
    by_cases hball : (values.all fun v =>
        match v with
        | none => true
        | some s => booleanTokens.contains (pyLower s)) = true
    · rw [if_pos hball]
      rw [hb] at hball
      refine ⟨⟨fun _ => ⟨hemp, hball⟩, fun _ => rfl⟩, ?_, ?_⟩
      · constructor
        · intro h; exact absurd h (by decide)
        · rintro ⟨-, hnb, -⟩; exact absurd hball hnb
      · constructor
        · intro h; exact absurd h (by decide)
        · rintro (h | ⟨hnb, -⟩)
          · exact absurd h hemp
          · exact absurd hball hnb
    · rw [if_neg hball]
      rw [hb] at hball
      by_cases hnall : (values.all fun v =>
          match v with
          | none => true
          | some s => if s = "" then true else pyFloatOk s) = true
      · rw [if_pos hnall]
        rw [hn] at hnall
        refine ⟨?_, ⟨fun _ => ⟨hemp, hball, hnall⟩, fun _ => rfl⟩, ?_⟩
        · constructor
          · intro h; exact absurd h (by decide)
          · rintro ⟨-, hbt⟩; exact absurd hbt hball
        · constructor
          · intro h; exact absurd h (by decide)
          · rintro (h | ⟨-, hnn⟩)
            · exact absurd h hemp
            · exact absurd hnall hnn
      · rw [if_neg hnall]
        rw [hn] at hnall
        refine ⟨?_, ?_, ⟨fun _ => Or.inr ⟨hball, hnall⟩, fun _ => rfl⟩⟩
        · constructor
          · intro h; exact absurd h (by decide)
          · rintro ⟨-, hbt⟩; exact absurd hbt hball
        · constructor
          · intro h; exact absurd h (by decide)
          · rintro ⟨-, -, hfl⟩; exact absurd hfl hnall

/-- C8 witness: the amended rule evaluated on a concrete mixed sample. -/
theorem C8_amended_rule_cascade_witness :
    infer_data_type [some "1.5", none, some "2e3"] = "numeric" :=
  (C8_amended_rule_cascade [some "1.5", none, some "2e3"]).2.1.mpr
    ⟨by decide,
     fun h => absurd (h "1.5" (by decide)) (by decide),
     by
       intro s hs hne
       simp only [List.mem_cons, List.not_mem_nil, or_false] at hs
       rcases hs with h | h | h
       · cases Option.some.inj h; decide
       · exact absurd h (by simp)
       · cases Option.some.inj h; decide⟩

/-! ## C2: the NPMI value at counts (10, 6, 7, 6) -/

theorem npmi_10676_value :
    npmiFromCounts 10 6 7 6 = Real.log ((10:ℝ)/7) / Real.log ((5:ℝ)/3) := by
  unfold npmiFromCounts
  rw [if_neg (by norm_num)]
  rw [if_neg (by norm_num : ¬ ((6:ℕ):ℝ) / ((10:ℕ):ℝ) = 1)]
  have h1 : ((6:ℕ):ℝ) / ((10:ℕ):ℝ) / (((6:ℕ):ℝ) / ((10:ℕ):ℝ) * (((7:ℕ):ℝ) / ((10:ℕ):ℝ)))
      = (10:ℝ)/7 := by norm_num
  have h2 : - Real.log (((6:ℕ):ℝ) / ((10:ℕ):ℝ)) = Real.log ((5:ℝ)/3) := by
    rw [show ((6:ℕ):ℝ) / ((10:ℕ):ℝ) = (((5:ℝ)/3))⁻¹ by norm_num, Real.log_inv, neg_neg]
  rw [h1, h2]

theorem npmi_10676_bounds :
    0.6 < npmiFromCounts 10 6 7 6 ∧ npmiFromCounts 10 6 7 6 < 0.7 := by
  rw [npmi_10676_value]
  have ha : 0 < Real.log ((10:ℝ)/7) := Real.log_pos (by norm_num)
  have hb : 0 < Real.log ((5:ℝ)/3) := Real.log_pos (by norm_num)
  have h3 : 3 * Real.log ((5:ℝ)/3) < 5 * Real.log ((10:ℝ)/7) := by
    have := Real.log_lt_log (show (0:ℝ) < ((5:ℝ)/3)^3 by positivity)
      (show ((5:ℝ)/3)^3 < ((10:ℝ)/7)^5 by norm_num)
    rw [Real.log_pow, Real.log_pow] at this
    push_cast at this
    linarith
  have h4 : 10 * Real.log ((10:ℝ)/7) < 7 * Real.log ((5:ℝ)/3) := by
    have := Real.log_lt_log (show (0:ℝ) < ((10:ℝ)/7)^10 by positivity)
      (show ((10:ℝ)/7)^10 < ((5:ℝ)/3)^7 by norm_num)
    rw [Real.log_pow, Real.log_pow] at this
    push_cast at this
    linarith
  constructor
  · rw [lt_div_iff hb]
    linarith
  · rw [div_lt_iff hb]
    linarith

theorem strength_10676 :
    get_correlation_strength (npmiFromCounts 10 6 7 6) = "Moderate" := by
  obtain ⟨hlo, hhi⟩ := npmi_10676_bounds
  unfold get_correlation_strength
  have habs : |npmiFromCounts 10 6 7 6| = npmiFromCounts 10 6 7 6 :=
    abs_of_pos (by linarith)
  rw [habs, if_neg (by linarith), if_pos (by linarith)]

/-- C2 counterexample: at counts `total=10, count1=6, count2=7, joint=6` the
source's strength classification of the NPMI score is `"Moderate"`, not
`"Strong"` (the score is ≈ 0.698, below the 0.7 threshold of
`get_correlation_strength`). -/
theorem C2_counterexample :
    get_correlation_strength (npmiFromCounts 10 6 7 6) ≠ "Strong" := by
  rw [strength_10676]
  decide

/-- C2 (amended): at counts `total=10, count1=6, count2=7, joint=6` the NPMI
score lies strictly between 0.6 and 0.8, and its strength classification is
`"Moderate"`. -/
theorem C2_amended_npmi_and_strength :
    0.6 < npmiFromCounts 10 6 7 6 ∧ npmiFromCounts 10 6 7 6 < 0.8
    ∧ get_correlation_strength (npmiFromCounts 10 6 7 6) = "Moderate" := by
  obtain ⟨hlo, hhi⟩ := npmi_10676_bounds
  exact ⟨hlo, by linarith, strength_10676⟩

/-! ## C5: symmetry of `calculate_npmi_score` in its two dimensions -/

theorem length_filter_mem_comm (l1 l2 : List String) (h1 : l1.Nodup) (h2 : l2.Nodup) :
    (l1.filter (· ∈ l2)).length = (l2.filter (· ∈ l1)).length := by
  have key : ∀ (a b : List String), a.Nodup →
      (a.filter (· ∈ b)).length = (a.toFinset ∩ b.toFinset).card := by
    intro a b ha
    have hnd : (a.filter (· ∈ b)).Nodup := ha.filter _
    rw [← List.toFinset_card_of_nodup hnd, List.toFinset_filter]
    congr 1
    ext x
    simp [List.mem_toFinset]
  rw [key l1 l2 h1, key l2 l1 h2, Finset.inter_comm]

theorem get_traces_nodup (db : Db) (base : List TraceRow) (dim : DimSpec) :
    (get_traces_for_dimension db base dim).Nodup := by
  unfold get_traces_for_dimension
  repeat' split
  all_goals first
    | exact List.nodup_dedup _
    | exact List.nodup_nil

theorem npmiFromCounts_comm (total c1 c2 j : ℕ) :
    npmiFromCounts total c1 c2 j = npmiFromCounts total c2 c1 j := by
  unfold npmiFromCounts
  by_cases h : c1 = 0 ∨ c2 = 0 ∨ j = 0
  · rw [if_pos h, if_pos (show c2 = 0 ∨ c1 = 0 ∨ j = 0 by tauto)]
  · rw [if_neg h, if_neg (show ¬ (c2 = 0 ∨ c1 = 0 ∨ j = 0) by tauto)]
    show (if ((j:ℝ)/(total:ℝ)) = 1 then (1:ℝ)
        else Real.log (((j:ℝ)/(total:ℝ)) / (((c1:ℝ)/(total:ℝ)) * ((c2:ℝ)/(total:ℝ))))
          / - Real.log ((j:ℝ)/(total:ℝ)))
      = (if ((j:ℝ)/(total:ℝ)) = 1 then (1:ℝ)
        else Real.log (((j:ℝ)/(total:ℝ)) / (((c2:ℝ)/(total:ℝ)) * ((c1:ℝ)/(total:ℝ))))
          / - Real.log ((j:ℝ)/(total:ℝ)))
    rw [mul_comm ((c1:ℝ)/(total:ℝ)) ((c2:ℝ)/(total:ℝ))]

/-- C5: `calculate_npmi_score` is symmetric in its two dimension
specifications — swapping them yields the same NPMI score (the joint count
is order-independent, and the NPMI formula is symmetric in the two counts). -/
theorem C5_npmi_symmetric (db : Db) (experiment_ids : List String)
    (dimension1 dimension2 : DimSpec) (start_time end_time : Option Int) :
    (calculate_npmi_score db experiment_ids dimension1 dimension2 start_time end_time).npmi_score
      = (calculate_npmi_score db experiment_ids dimension2 dimension1 start_time end_time).npmi_score := by
  unfold calculate_npmi_score
  by_cases h : (baseTraces db experiment_ids start_time end_time).length = 0
  · rw [if_pos h, if_pos h]
  · rw [if_neg h, if_neg h]
    simp only
    rw [length_filter_mem_comm _ _
          (get_traces_nodup db _ dimension1) (get_traces_nodup db _ dimension2),
        npmiFromCounts_comm]

/-! ## C4: properties of the ranked correlation list -/

theorem corrLe_trans (a b c : CorrEntry) :
    corrLe a b = true → corrLe b c = true → corrLe a c = true := by
  simp only [corrLe, decide_eq_true_eq]
  exact fun h1 h2 => le_trans h2 h1

theorem corrLe_total (a b : CorrEntry) : (corrLe a b || corrLe b a) = true := by
  simp only [corrLe, Bool.or_eq_true, decide_eq_true_eq]
  exact le_total _ _

theorem corrEntries_trace_count_pos (db : Db) (base : List TraceRow)
    (filter_traces : List String) (total_count filter_count : ℕ) (dim : Dimension) :
    ∀ e ∈ corrEntriesForDim db base filter_traces total_count filter_count dim,
      0 < e.trace_count := by
  intro e he
  simp only [corrEntriesForDim] at he
  split at he
  · rw [List.mem_flatMap] at he
    obtain ⟨vr, -, he⟩ := he
    split at he
    · split at he
      · split at he
        · simp only [List.mem_singleton] at he
          subst he
          simp only
          assumption
        · simp at he
      · simp at he
    · simp at he
  · simp at he

theorem corrList_trace_count_pos (db : Db) (experiment_ids : List String)
    (filter_string : String) (correlation_dimensions : List String)
    (start_time end_time : Option Int) :
    ∀ e ∈ corrList db experiment_ids filter_string correlation_dimensions
        start_time end_time, 0 < e.trace_count := by
  intro e he
  simp only [corrList] at he
  split at he
  · simp at he
  · rw [List.mem_flatMap] at he
    obtain ⟨dim, -, he⟩ := he
    exact corrEntries_trace_count_pos _ _ _ _ _ _ e he

/-- C4: the output of `get_correlations_for_filter` contains only entries
with a positive joint (intersection) count, never exceeds `limit` in
length, is sorted by descending `abs(npmi_score)`, and — because Python's
sort is stable — any two discovery-ordered entries with equal ranking keys
keep their relative order through the sort (the output is the `limit`-prefix
of that sorted list). -/
theorem C4_rank_correlations_properties (db : Db) (experiment_ids : List String)
    (filter_string : String) (correlation_dimensions : List String)
    (start_time end_time : Option Int) (limit : ℕ) :
    (∀ e ∈ get_correlations_for_filter db experiment_ids filter_string
        correlation_dimensions start_time end_time limit, 0 < e.trace_count)
    ∧ (get_correlations_for_filter db experiment_ids filter_string
        correlation_dimensions start_time end_time limit).length ≤ limit
    ∧ (get_correlations_for_filter db experiment_ids filter_string
        correlation_dimensions start_time end_time limit).Pairwise
          (fun a b => |b.npmi_score| ≤ |a.npmi_score|)
    ∧ (∀ a b, [a, b].Sublist (corrList db experiment_ids filter_string
          correlation_dimensions start_time end_time) →
        |a.npmi_score| = |b.npmi_score| →
        [a, b].Sublist ((corrList db experiment_ids filter_string
          correlation_dimensions start_time end_time).mergeSort corrLe)) := by
  refine ⟨?_, ?_, ?_, ?_⟩
  · intro e he
    have h1 : e ∈ (corrList db experiment_ids filter_string correlation_dimensions
        start_time end_time).mergeSort corrLe := List.take_subset _ _ he
    rw [List.mem_mergeSort] at h1
    exact corrList_trace_count_pos _ _ _ _ _ _ e h1
  · exact List.length_take_le _ _
  · have hs := List.sorted_mergeSort corrLe_trans corrLe_total
      (corrList db experiment_ids filter_string correlation_dimensions start_time end_time)
    have hp := List.Pairwise.sublist (List.take_sublist limit _) hs
    exact hp.imp fun h => by simpa [corrLe, decide_eq_true_eq] using h
  · intro a b hsub heq
    exact List.pair_sublist_mergeSort corrLe_trans corrLe_total
      (by simp [corrLe, decide_eq_true_eq, heq.symm.le]) hsub

/-! ## Concrete example databases for counterexamples and witnesses -/

/-- Two traces in one experiment: an ERROR trace without tags and an OK
trace carrying `env=b`.  Against the filter `status:ERROR` the candidate
value `env=b` has `total=2, count1=1, count2=1, joint=0`. -/
def exDb : Db :=
  ⟨[⟨"t1", "e1", 100, "ERROR"⟩, ⟨"t2", "e1", 200, "OK"⟩], [⟨"t2", "env", "b"⟩]⟩

theorem exDb_corrList :
    corrList exDb ["e1"] "status:ERROR" ["tag"] none none = [] := by
  simp only [corrList]
  rw [if_neg (by decide)]
  have hrel : (discover_dimensions exDb ["e1"] none none).filter
      (fun d => (["tag"] : List String).contains d.dtype)
      = [⟨"tag.env", "tag", "string",
          [⟨"key", "string", true⟩, ⟨"value", "string", true⟩]⟩] := by decide
  rw [hrel]
  simp only [List.flatMap_cons, List.flatMap_nil, List.append_nil]
  simp only [corrEntriesForDim, if_true]
  have htk : pyReplace "tag.env" "tag." "" = "env" := by decide
  have hft : get_traces_for_dimension exDb (baseTraces exDb ["e1"] none none)
      (parse_filter_string "status:ERROR") = ["t1"] := by decide
  have htv : tagValueCounts exDb ["t1"] "env" = [] := by decide
  simp only [htk, hft, htv, List.flatMap_nil]

/-- A single ERROR trace with two different tag keys carrying the same
value, so the ranking produces two entries with identical NPMI scores. -/
def exDb2 : Db :=
  ⟨[⟨"t1", "e1", 100, "ERROR"⟩], [⟨"t1", "k1", "v"⟩, ⟨"t1", "k2", "v"⟩]⟩

theorem exDb2_corrList :
    corrList exDb2 ["e1"] "status:ERROR" ["tag"] none none
      = [⟨"tag.k1", "v", 1, 1, 100, 100, get_correlation_strength 1⟩,
         ⟨"tag.k2", "v", 1, 1, 100, 100, get_correlation_strength 1⟩] := by
  simp only [corrList]
  rw [if_neg (by decide)]
  have hrel : (discover_dimensions exDb2 ["e1"] none none).filter
      (fun d => (["tag"] : List String).contains d.dtype)
      = [⟨"tag.k1", "tag", "string", [⟨"key", "string", true⟩, ⟨"value", "string", true⟩]⟩,
         ⟨"tag.k2", "tag", "string", [⟨"key", "string", true⟩, ⟨"value", "string", true⟩]⟩] := by
    decide
  rw [hrel]
  simp only [List.flatMap_cons, List.flatMap_nil, List.append_nil]
  simp only [corrEntriesForDim, if_true]
  have htk1 : pyReplace "tag.k1" "tag." "" = "k1" := by decide
  have htk2 : pyReplace "tag.k2" "tag." "" = "k2" := by decide
  have hft : get_traces_for_dimension exDb2 (baseTraces exDb2 ["e1"] none none)
      (parse_filter_string "status:ERROR") = ["t1"] := by decide
  have htv1 : tagValueCounts exDb2 ["t1"] "k1" = [("v", 1)] := by decide
  have htv2 : tagValueCounts exDb2 ["t1"] "k2" = [("v", 1)] := by decide
  have hd1 : get_traces_for_dimension exDb2 (baseTraces exDb2 ["e1"] none none)
      ⟨"tag", "tag.k1", "k1", some (.str "v")⟩ = ["t1"] := by decide
  have hd2 : get_traces_for_dimension exDb2 (baseTraces exDb2 ["e1"] none none)
      ⟨"tag", "tag.k2", "k2", some (.str "v")⟩ = ["t1"] := by decide
  have hbl : (baseTraces exDb2 ["e1"] none none).length = 1 := by decide
  simp only [htk1, htk2, hft, htv1, htv2, List.flatMap_cons, List.flatMap_nil, List.append_nil]
  simp only [hd1, hd2, hbl]
  norm_num
  rw [if_neg (show ¬ ("v" : String) = "" by decide),
      if_neg (show ¬ ("v" : String) = "" by decide)]
  rfl

/-! ## C3 -/

/-- C3 counterexample: on `exDb` the joint-zero candidate (`total=2`,
`count1=1`, `count2=1`, `joint=0`) produces no ranking entry at all — the
ranking output is empty, so no `-1.0` score (with Strong strength) appears
on the ranking path. -/
theorem C3_counterexample :
    get_correlations_for_filter exDb ["e1"] "status:ERROR" ["tag"] none none 10 = []
    ∧ (baseTraces exDb ["e1"] none none).length = 2
    ∧ (get_traces_for_dimension exDb (baseTraces exDb ["e1"] none none)
        (parse_filter_string "status:ERROR")).length = 1
    ∧ (get_traces_for_dimension exDb (baseTraces exDb ["e1"] none none)
        ⟨"tag", "tag.env", "env", some (.str "b")⟩).length = 1
    ∧ ((get_traces_for_dimension exDb (baseTraces exDb ["e1"] none none)
          (parse_filter_string "status:ERROR")).filter
        (· ∈ get_traces_for_dimension exDb (baseTraces exDb ["e1"] none none)
          ⟨"tag", "tag.env", "env", some (.str "b")⟩)).length = 0 := by
  refine ⟨?_, by decide, by decide, by decide, by decide⟩
  unfold get_correlations_for_filter
  rw [exDb_corrList, List.mergeSort_nil, List.take_nil]

/-- C3 (amended): the `-1.0` convention for `joint = 0` lives on the SQL
two-filter correlation path (`calculate_trace_filter_correlation`), whose
`-1.0` classifies as Strong; the ranking path simply omits joint-zero
candidates (every emitted entry has a positive joint count); and
`calculate_npmi_score` returns NPMI `0.0` with strength `None` whenever the
population is empty. -/
theorem C3_amended_zero_conventions :
    (∀ total c1 c2 : ℕ, sqlNpmi total c1 c2 0 = -1
      ∧ get_correlation_strength (sqlNpmi total c1 c2 0) = "Strong")
    ∧ (∀ (db : Db) (experiment_ids : List String) (d1 d2 : DimSpec)
        (start_time end_time : Option Int),
        (baseTraces db experiment_ids start_time end_time).length = 0 →
        (calculate_npmi_score db experiment_ids d1 d2 start_time end_time).npmi_score = 0
        ∧ (calculate_npmi_score db experiment_ids d1 d2 start_time end_time).strength = "None")
    ∧ (∀ (db : Db) (experiment_ids : List String) (filter_string : String)
        (correlation_dimensions : List String) (start_time end_time : Option Int) (limit : ℕ),
        ∀ e ∈ get_correlations_for_filter db experiment_ids filter_string
          correlation_dimensions start_time end_time limit, 0 < e.trace_count) := by
  refine ⟨?_, ?_, ?_⟩
  · intro total c1 c2
    have hval : sqlNpmi total c1 c2 0 = -1 := by
      simp only [sqlNpmi]
      rw [if_pos trivial]
    refine ⟨hval, ?_⟩
    rw [hval]
    unfold get_correlation_strength
    rw [if_pos (by norm_num : (0.7:ℝ) ≤ |(-1:ℝ)|)]
  · intro db experiment_ids d1 d2 start_time end_time h
    unfold calculate_npmi_score
    rw [if_pos h]
    exact ⟨rfl, rfl⟩
  · intro db experiment_ids filter_string correlation_dimensions start_time end_time limit e he
    have h1 : e ∈ (corrList db experiment_ids filter_string correlation_dimensions
        start_time end_time).mergeSort corrLe := List.take_subset _ _ he
    rw [List.mem_mergeSort] at h1
    exact corrList_trace_count_pos _ _ _ _ _ _ e h1

/-- C3 amended witness: the SQL convention at concrete counts, the empty
population in `calculate_npmi_score`, and a concrete positive-joint entry
of the ranking output. -/
theorem C3_amended_zero_conventions_witness :
    sqlNpmi 5 3 4 0 = -1
    ∧ (calculate_npmi_score ⟨[], []⟩ ["e1"]
        ⟨"builtin", "trace.status", "", some (.str "ERROR")⟩
        ⟨"builtin", "trace.has_error", "", some (.bool true)⟩ none none).npmi_score = 0
    ∧ 0 < (CorrEntry.mk "tag.k1" "v" 1 1 100 100 (get_correlation_strength 1)).trace_count := by
  refine ⟨(C3_amended_zero_conventions.1 5 3 4).1,
    (C3_amended_zero_conventions.2.1 ⟨[], []⟩ ["e1"] _ _ none none rfl).1,
    ?_⟩
  have hmem : (CorrEntry.mk "tag.k1" "v" 1 1 100 100 (get_correlation_strength 1))
      ∈ get_correlations_for_filter exDb2 ["e1"] "status:ERROR" ["tag"] none none 10 := by
    unfold get_correlations_for_filter
    rw [List.take_of_length_le (by rw [List.length_mergeSort, exDb2_corrList]; norm_num)]
    rw [List.mem_mergeSort, exDb2_corrList]
    exact List.mem_cons_self _ _
  exact C3_amended_zero_conventions.2.2 exDb2 ["e1"] "status:ERROR" ["tag"] none none 10 _ hmem

/-- C4 witness: the theorem applied on `exDb2`, whose two entries tie on
the ranking key; the stability conclusion is exercised at that tie. -/
theorem C4_rank_correlations_properties_witness :
    (get_correlations_for_filter exDb2 ["e1"] "status:ERROR" ["tag"] none none 10).length ≤ 10
    ∧ ∃ a b : CorrEntry, |a.npmi_score| = |b.npmi_score|
      ∧ [a, b].Sublist ((corrList exDb2 ["e1"] "status:ERROR" ["tag"] none none).mergeSort corrLe) := by
  refine ⟨(C4_rank_correlations_properties exDb2 ["e1"] "status:ERROR" ["tag"] none none 10).2.1,
    ⟨"tag.k1", "v", 1, 1, 100, 100, get_correlation_strength 1⟩,
    ⟨"tag.k2", "v", 1, 1, 100, 100, get_correlation_strength 1⟩, rfl, ?_⟩
  exact (C4_rank_correlations_properties exDb2 ["e1"] "status:ERROR" ["tag"] none none 10).2.2.2
    _ _ (by rw [exDb2_corrList]) rfl

/-! ## C9: operator restrictions on tag fields -/

theorem parseCondition_tags_like :
    parseCondition ("tags.env LIKE '%prod%'".toList) 0
      = .error (.invalidTagOperator .LIKE) := by
  unfold parseCondition
  have ht : pyStrip ("tags.env LIKE '%prod%'".toList)
      = "tags.env LIKE '%prod%'".toList := by decide
  simp only [ht]
  rw [if_neg (by decide), if_neg (by decide)]
  have hfc : findClause ("tags.env LIKE '%prod%'".toList)
      = some ("tags.env".toList, .LIKE, "'%prod%'".toList) := by decide
  rw [hfc]
  have hsb : stripBQ ("tags.env".toList) = "tags.env" := by decide
  simp only [hsb]
  rw [if_pos (by decide : pyStartsWith "tags.env" "tags." = true)]
  have hpd : pyDrop "tags.env" 5 = "env" := by decide
  rw [hpd]
  rfl

theorem parseCondition_name_like :
    parseCondition ("name LIKE '%test%'".toList) 0
      = .ok ((some "tags['mlflow.traceName'] LIKE :param_0",
              [("param_0", PyValue.scalar (.pstr "%test%"))]), 1) := by
  unfold parseCondition
  have ht : pyStrip ("name LIKE '%test%'".toList) = "name LIKE '%test%'".toList := by decide
  simp only [ht]
  rw [if_neg (by decide), if_neg (by decide)]
  have hfc : findClause ("name LIKE '%test%'".toList)
      = some ("name".toList, .LIKE, "'%test%'".toList) := by decide
  rw [hfc]
  have hsb : stripBQ ("name".toList) = "name" := by decide
  simp only [hsb]
  rw [if_neg (by decide : ¬ pyStartsWith "name" "tags." = true),
      if_neg (by decide : ¬ pyStartsWith "name" "metadata." = true),
      if_neg (by decide : ¬ pyStartsWith "name" "feedback." = true),
      if_neg (by decide : ¬ pyStartsWith "name" "span." = true)]
  have hlk : (SEARCH_KEY_TO_TAG.lookup ("name" : String) : Option String)
      = some "mlflow.traceName" := by decide
  rw [hlk]
  rfl

/-- C9: a pattern, range or set operator on a plain `tags.<key>` field is
rejected with the invalid-tag-operator error (only `=` and `!=` are
accepted), `compile_filter("tags.env LIKE '%prod%'")` fails exactly that
way, and the string-mapped `name` alias (a tag-backed field flagged in
`STRING_MAPPED_FIELDS`) accepts the full string operator set. -/
theorem C9_tag_operator_restrictions :
    (∀ (tag_key : String) (op : FilterOperator) (value : PyValue) (uk : Bool) (n : ℕ),
      op ∉ TAG_OPERATORS →
      generate_tag_condition tag_key op value uk false n = .error (.invalidTagOperator op))
    ∧ (∀ (tag_key : String) (value : PyValue) (uk : Bool) (n : ℕ),
      (∃ r, generate_tag_condition tag_key .EQ value uk false n = .ok r)
      ∧ ∃ r, generate_tag_condition tag_key .NEQ value uk false n = .ok r)
    ∧ filterParse "tags.env LIKE '%prod%'" = .error (.invalidTagOperator .LIKE)
    ∧ (∀ (tag_key : String) (op : FilterOperator) (value : PyValue) (uk : Bool) (n : ℕ),
      op ∈ STRING_OPERATORS →
      ∃ r, generate_tag_condition tag_key op value uk true n = .ok r)
    ∧ filterParse "name LIKE '%test%'"
        = .ok (["tags['mlflow.traceName'] LIKE :param_0"],
               [("param_0", PyValue.scalar (.pstr "%test%"))]) := by
  refine ⟨?_, ?_, ?_, ?_, ?_⟩
  · intro tag_key op value uk n hop
    unfold generate_tag_condition
    simp only [Bool.false_eq_true, if_false]
    rw [if_pos hop]
  · intro tag_key value uk n
    constructor
    · exact ⟨_, by unfold generate_tag_condition; rw [if_neg (by decide)]⟩
    · exact ⟨_, by unfold generate_tag_condition; rw [if_neg (by decide)]⟩
  · unfold filterParse
    rw [if_neg (by decide)]
    have hsplit : splitByAnd "tags.env LIKE '%prod%'" = ["tags.env LIKE '%prod%'"] := by decide
    rw [hsplit]
    simp only [parseClauses]
    have hps : pyStrip ("tags.env LIKE '%prod%'".toList)
        = "tags.env LIKE '%prod%'".toList := by decide
    simp only [hps, parseCondition_tags_like]
  · intro tag_key op value uk n hop
    refine ⟨("tags['" ++ tag_key ++ "'] " ++ opText op ++ " :" ++ paramName n,
             [(paramName n, value)], n + 1), ?_⟩
    unfold generate_tag_condition
    rw [show (if (true : Bool) = true then STRING_OPERATORS else TAG_OPERATORS)
          = STRING_OPERATORS from if_pos rfl]
    rw [if_neg (not_not_intro hop)]
  · unfold filterParse
    rw [if_neg (by decide)]
    have hsplit : splitByAnd "name LIKE '%test%'" = ["name LIKE '%test%'"] := by decide
    rw [hsplit]
    simp only [parseClauses]
    have hps : pyStrip ("name LIKE '%test%'".toList) = "name LIKE '%test%'".toList := by decide
    simp only [hps, parseCondition_name_like]
    rfl

/-- C9 witness: the rejection applied at the concrete operator `>` and the
full string set at `ILIKE`. -/
theorem C9_tag_operator_restrictions_witness :
    generate_tag_condition "env" .GT (PyValue.scalar (.pint 5)) false false 0
      = .error (.invalidTagOperator .GT)
    ∧ ∃ r, generate_tag_condition "mlflow.traceName" .ILIKE
        (PyValue.scalar (.pstr "%x%")) true true 0 = .ok r :=
  ⟨C9_tag_operator_restrictions.1 "env" .GT _ false 0 (by decide),
   C9_tag_operator_restrictions.2.2.2.1 "mlflow.traceName" .ILIKE _ true 0 (by decide)⟩

/-! ## C1: parameter-binding invariants of `TraceFilterParser.parse`

The parameter names of one clause all come from the counter interval the
clause consumed, are distinct, and distinct clauses consume disjoint
intervals — so the parameter dictionary never collides. -/

/-- All parameter names of a clause lie in the counter interval `[n, n')`
and are pairwise distinct. -/
def KeysSpec (n n' : ℕ) (prms : List (String × PyValue)) : Prop :=
  n ≤ n' ∧ (prms.map Prod.fst).Nodup
  ∧ ∀ k ∈ prms.map Prod.fst, ∃ i, n ≤ i ∧ i < n' ∧ k = paramName i

theorem inParamNames_spec : ∀ (vs : List PyScalar) (n : ℕ),
    (inParamNames n vs).1 = (List.range' n vs.length).map (fun i => ":" ++ paramName i)
    ∧ (inParamNames n vs).2.1.map Prod.fst = (List.range' n vs.length).map paramName
    ∧ (inParamNames n vs).2.2 = n + vs.length := by
  intro vs
  induction vs with
  | nil => intro n; simp [inParamNames]
  | cons v vs ih =>
    intro n
    obtain ⟨h1, h2, h3⟩ := ih (n + 1)
    refine ⟨?_, ?_, ?_⟩
    · simp only [inParamNames, List.length_cons, List.range'_succ, List.map_cons]
      rw [h1]
    · simp only [inParamNames, List.length_cons, List.range'_succ, List.map_cons]
      rw [h2]
    · simp only [inParamNames, List.length_cons]
      rw [h3]
      omega

theorem keysSpec_of_range (n len : ℕ) (prms : List (String × PyValue))
    (h : prms.map Prod.fst = (List.range' n len).map paramName) :
    KeysSpec n (n + len) prms := by
  refine ⟨by omega, ?_, ?_⟩
  · rw [h]
    exact (List.nodup_range' n len).map paramName_injective
  · intro k hk
    rw [h] at hk
    obtain ⟨i, hi, rfl⟩ := List.mem_map.mp hk
    rw [List.mem_range'_1] at hi
    exact ⟨i, hi.1, hi.2, rfl⟩

theorem keysSpec_single (n : ℕ) (v : PyValue) :
    KeysSpec n (n + 1) [(paramName n, v)] := by
  refine ⟨by omega, by simp, ?_⟩
  intro k hk
  simp only [List.map_cons, List.map_nil, List.mem_singleton] at hk
  exact ⟨n, le_refl n, by omega, hk⟩

theorem generate_tag_condition_keys (tag_key : String) (op : FilterOperator)
    (value : PyValue) (uk alw : Bool) (n : ℕ) (c : String)
    (prms : List (String × PyValue)) (n' : ℕ)
    (h : generate_tag_condition tag_key op value uk alw n = .ok (c, prms, n')) :
    KeysSpec n n' prms := by
  unfold generate_tag_condition at h
  split at h <;> dsimp only at h <;> split at h <;> cases h <;>
    exact keysSpec_single n value

theorem generate_metadata_condition_keys (mkey : String) (op : FilterOperator)
    (value : PyValue) (uk : Bool) (n : ℕ) (c : String)
    (prms : List (String × PyValue)) (n' : ℕ)
    (h : generate_metadata_condition mkey op value uk n = .ok (c, prms, n')) :
    KeysSpec n n' prms := by
  unfold generate_metadata_condition at h
  simp only [Except.ok.injEq, Prod.mk.injEq] at h
  obtain ⟨-, hprms, hn⟩ := h
  subst hprms hn
  exact keysSpec_single n value

theorem generate_feedback_condition_keys (fname : String) (op : FilterOperator)
    (value : PyValue) (n : ℕ) (c : String)
    (prms : List (String × PyValue)) (n' : ℕ)
    (h : generate_feedback_condition fname op value n = .ok (c, prms, n')) :
    KeysSpec n n' prms := by
  unfold generate_feedback_condition at h
  simp only [Except.ok.injEq, Prod.mk.injEq] at h
  obtain ⟨-, hprms, hn⟩ := h
  subst hprms hn
  exact keysSpec_single n value

theorem generate_span_condition_keys (sf : String) (op : FilterOperator)
    (value : PyValue) (n : ℕ) (c : String)
    (prms : List (String × PyValue)) (n' : ℕ)
    (h : generate_span_condition sf op value n = .ok (c, prms, n')) :
    KeysSpec n n' prms := by
  unfold generate_span_condition at h
  split at h
  · exact absurd h (by simp)
  · split at h
    · exact absurd h (by simp)
    · simp only [Except.ok.injEq, Prod.mk.injEq] at h
      obtain ⟨-, hprms, hn⟩ := h
      subst hprms hn
      exact keysSpec_single n value

theorem generate_attribute_condition_keys (field : String) (op : FilterOperator)
    (value : PyValue) (n : ℕ) (c : String)
    (prms : List (String × PyValue)) (n' : ℕ)
    (h : generate_attribute_condition field op value n = .ok (c, prms, n')) :
    KeysSpec n n' prms := by
  have hIN : ∀ vs : List PyScalar,
      KeysSpec n (inParamNames (n + 1) vs).2.2 (inParamNames (n + 1) vs).2.1 := by
    intro vs
    obtain ⟨-, h2, h3⟩ := inParamNames_spec vs (n + 1)
    have hk := keysSpec_of_range (n + 1) _ _ h2
    refine ⟨by rw [h3]; omega, hk.2.1, ?_⟩
    intro k hk2
    obtain ⟨i, hi1, hi2, hi3⟩ := hk.2.2 k hk2
    exact ⟨i, by omega, by rw [h3]; omega, hi3⟩
  unfold generate_attribute_condition at h
  dsimp only at h
  by_cases h1 : (attributeAlias field = "timestamp_ms" ∨ attributeAlias field = "execution_time_ms")
      ∧ op ∉ NUMERIC_OPERATORS
  · rw [if_pos h1] at h
    cases h
  · rw [if_neg h1] at h
    by_cases h2 : op = .IN
    · rw [if_pos h2] at h
      cases h
      exact hIN _
    · rw [if_neg h2] at h
      by_cases h3 : op = .NOT_IN
      · rw [if_pos h3] at h
        cases h
        exact hIN _
      · rw [if_neg h3] at h
        cases h
        exact keysSpec_single n value

theorem lift_ok (g : Except ParseErr (String × List (String × PyValue) × Nat))
    {copt : Option String} {prms : List (String × PyValue)} {n' : Nat}
    (h : Except.map (fun x => ((some x.1, x.2.1), x.2.2)) g = .ok ((copt, prms), n')) :
    ∃ c, g = .ok (c, prms, n') := by
  cases g with
  | error e => simp [Except.map] at h
  | ok val =>
    obtain ⟨c, p2, n2⟩ := val
    simp only [Except.map, Except.ok.injEq, Prod.mk.injEq] at h
    exact ⟨c, by rw [h.1.2, h.2]⟩

theorem parseCondition_keys : ∀ (len : ℕ) (cs : List Char), cs.length ≤ len →
    ∀ (n : ℕ) (copt : Option String) (prms : List (String × PyValue)) (n' : ℕ),
    parseCondition cs n = .ok ((copt, prms), n') → KeysSpec n n' prms := by
  intro len
  induction len with
  | zero =>
    intro cs hcs n copt prms n' h
    have hnil : cs = [] := List.length_eq_zero.mp (by omega)
    subst hnil
    unfold parseCondition at h
    rw [if_pos (show pyStrip [] = [] from rfl)] at h
    cases h
    exact ⟨le_refl n, by simp, by simp⟩
  | succ len ih =>
    intro cs hcs n copt prms n' h
    unfold parseCondition at h
    dsimp only at h
    by_cases ht : pyStrip cs = []
    · rw [if_pos ht] at h
      cases h
      exact ⟨le_refl n, by simp, by simp⟩
    · rw [if_neg ht] at h
      by_cases hcnt : (pyStrip cs).take 6 = "count(".toList
      · rw [if_pos hcnt] at h
        cases hscan : countScan [] ((pyStrip cs).drop 6) with
        | none => rw [hscan] at h; cases h
        | some trip =>
          obtain ⟨inner, cop, rhs⟩ := trip
          rw [hscan] at h
          dsimp only at h
          cases hin : parseCondition inner n with
          | error e => rw [hin] at h; cases h
          | ok val =>
            obtain ⟨⟨ic, ip⟩, n1⟩ := val
            rw [hin] at h
            dsimp only at h
            cases h
            have hlen : inner.length ≤ len := by
              have hc := countScan_length ((pyStrip cs).drop 6) [] inner cop rhs hscan
              have h2 := pyStrip_length_le cs
              have h4 := congrArg List.length hcnt
              rw [List.length_take] at h4
              have h5 : ("count(".toList).length = 6 := by decide
              have hd : ((pyStrip cs).drop 6).length = (pyStrip cs).length - 6 :=
                List.length_drop 6 _
              have hnil0 : ([] : List Char).length = 0 := rfl
              omega
            obtain ⟨hle, hnd, hmem⟩ := ih inner hlen n ic ip n1 hin
            refine ⟨by omega, ?_, ?_⟩
            · rw [List.map_append, List.nodup_append]
              refine ⟨hnd, by simp, ?_⟩
              intro k hk1 hk2
              simp only [List.map_cons, List.map_nil, List.mem_singleton] at hk2
              obtain ⟨i, hi1, hi2, hi3⟩ := hmem k hk1
              rw [hk2] at hi3
              have := paramName_injective hi3
              omega
            · intro k hk
              rw [List.map_append, List.mem_append] at hk
              rcases hk with hk | hk
              · obtain ⟨i, hi1, hi2, hi3⟩ := hmem k hk
                exact ⟨i, hi1, by omega, hi3⟩
              · simp only [List.map_cons, List.map_nil, List.mem_singleton] at hk
                exact ⟨n1, by omega, by omega, hk⟩
      · rw [if_neg hcnt] at h
        cases hfc : findClause (pyStrip cs) with
        | none => rw [hfc] at h; cases h
        | some trip =>
          obtain ⟨fr, op, vcs⟩ := trip
          rw [hfc] at h
          dsimp only at h
          repeat' split at h
          all_goals obtain ⟨c0, hg⟩ := lift_ok _ h
          all_goals first
            | exact generate_tag_condition_keys _ _ _ _ _ _ _ _ _ hg
            | exact generate_metadata_condition_keys _ _ _ _ _ _ _ _ hg
            | exact generate_feedback_condition_keys _ _ _ _ _ _ _ hg
            | exact generate_span_condition_keys _ _ _ _ _ _ _ hg
            | exact generate_attribute_condition_keys _ _ _ _ _ _ _ hg

theorem parseClauses_keys : ∀ (ps : List String) (n : ℕ) (conds : List String)
    (params : List (String × PyValue)) (n' : ℕ),
    parseClauses n ps = .ok (conds, params, n') → KeysSpec n n' params := by
  intro ps
  induction ps with
  | nil =>
    intro n conds params n' h
    simp only [parseClauses] at h
    cases h
    exact ⟨le_refl n, by simp, by simp⟩
  | cons p ps ih =>
    intro n conds params n' h
    simp only [parseClauses] at h
    cases hc : parseCondition (pyStrip p.toList) n with
    | error e => rw [hc] at h; cases h
    | ok val =>
      obtain ⟨⟨copt, prms⟩, n1⟩ := val
      rw [hc] at h
      dsimp only at h
      cases hr : parseClauses n1 ps with
      | error e => rw [hr] at h; cases h
      | ok val2 =>
        obtain ⟨cs2, params2, n2⟩ := val2
        rw [hr] at h
        dsimp only at h
        obtain ⟨a1, a2, a3⟩ :=
          parseCondition_keys (pyStrip p.toList).length _ (le_refl _) _ _ _ _ hc
        obtain ⟨b1, b2, b3⟩ := ih n1 cs2 params2 n2 hr
        have hcomb : KeysSpec n n2 (prms ++ params2) := by
          refine ⟨by omega, ?_, ?_⟩
          · rw [List.map_append, List.nodup_append]
            refine ⟨a2, b2, ?_⟩
            intro k hk1 hk2
            obtain ⟨i, hi1, hi2, hi3⟩ := a3 k hk1
            obtain ⟨j, hj1, hj2, hj3⟩ := b3 k hk2
            rw [hi3] at hj3
            have := paramName_injective hj3
            omega
          · intro k hk
            rw [List.map_append, List.mem_append] at hk
            rcases hk with hk | hk
            · obtain ⟨i, hi1, hi2, hi3⟩ := a3 k hk
              exact ⟨i, hi1, by omega, hi3⟩
            · obtain ⟨j, hj1, hj2, hj3⟩ := b3 k hk
              exact ⟨j, by omega, hj2, hj3⟩
        have hweak : KeysSpec n n2 params2 := by
          refine ⟨by omega, b2, ?_⟩
          intro k hk
          obtain ⟨j, hj1, hj2, hj3⟩ := b3 k hk
          exact ⟨j, by omega, hj2, hj3⟩
        cases copt with
        | some c =>
          dsimp only at h
          split at h <;> cases h
          · exact hcomb
          · exact hweak
        | none =>
          cases h
          exact hweak

/-- The contribution of one clause to the condition list: its condition
text when present and truthy, nothing otherwise. -/
def flattenCond : Option String → Option String
  | some c => if c ≠ "" then some c else none
  | none => none

theorem parseClauses_order : ∀ (ps : List String) (n : ℕ) (conds : List String)
    (params : List (String × PyValue)) (n' : ℕ),
    parseClauses n ps = .ok (conds, params, n') →
    ∃ pcs : List (Option String), pcs.length = ps.length
      ∧ conds = pcs.reduceOption
      ∧ ∀ (i : ℕ) (p : String), ps[i]? = some p → ∃ m copt prms m',
          parseCondition (pyStrip p.toList) m = .ok ((copt, prms), m')
          ∧ pcs[i]? = some (flattenCond copt) := by
  intro ps
  induction ps with
  | nil =>
    intro n conds params n' h
    simp only [parseClauses] at h
    cases h
    exact ⟨[], rfl, rfl, fun i p hp => by simp at hp⟩
  | cons p ps ih =>
    intro n conds params n' h
    simp only [parseClauses] at h
    cases hc : parseCondition (pyStrip p.toList) n with
    | error e => rw [hc] at h; cases h
    | ok val =>
      obtain ⟨⟨copt, prms⟩, n1⟩ := val
      rw [hc] at h
      dsimp only at h
      cases hr : parseClauses n1 ps with
      | error e => rw [hr] at h; cases h
      | ok val2 =>
        obtain ⟨cs2, params2, n2⟩ := val2
        rw [hr] at h
        dsimp only at h
        obtain ⟨pcs, hlen, hred, hidx⟩ := ih n1 cs2 params2 n2 hr
        have hstep : ∀ (i : ℕ) (q : String), (p :: ps)[i]? = some q → ∃ m copt2 prms2 m',
            parseCondition (pyStrip q.toList) m = .ok ((copt2, prms2), m')
            ∧ (flattenCond copt :: pcs)[i]? = some (flattenCond copt2) := by
          intro i q hq
          cases i with
          | zero =>
            simp only [List.getElem?_cons_zero, Option.some.injEq] at hq
            subst hq
            exact ⟨n, copt, prms, n1, hc, by simp⟩
          | succ i =>
            simp only [List.getElem?_cons_succ] at hq ⊢
            exact hidx i q hq
        cases copt with
        | some c =>
          dsimp only at h
          by_cases hne : c ≠ ""
          · rw [if_pos hne] at h
            cases h
            refine ⟨flattenCond (some c) :: pcs, by simp [hlen], ?_, hstep⟩
            simp only [flattenCond, if_pos hne, List.reduceOption_cons_of_some]
            rw [hred]
          · rw [if_neg hne] at h
            cases h
            refine ⟨flattenCond (some c) :: pcs, by simp [hlen], ?_, hstep⟩
            simp only [flattenCond, if_neg hne, List.reduceOption_cons_of_none]
            rw [hred]
        | none =>
          cases h
          refine ⟨flattenCond none :: pcs, by simp [hlen], ?_, hstep⟩
          simp only [flattenCond, List.reduceOption_cons_of_none]
          rw [hred]

/-! ### Shape noninterference: condition text and parameter names depend
only on the clause's shape (field, operator, literal arity), never on
literal content. -/

/-- The number of scalars a parsed value carries. -/
def pvLen : PyValue → ℕ
  | .scalar _ => 1
  | .list vs => vs.length

theorem pvLen_parseValue (vcs : List Char) (op : FilterOperator) :
    pvLen (parseValue vcs op) = arityOf op vcs := by
  unfold parseValue arityOf
  by_cases h : op = .IN ∨ op = .NOT_IN
  · rw [if_pos h, if_pos h]
    dsimp only [pvLen]
    rw [List.length_map]
  · rw [if_neg h, if_neg h]
    rfl

theorem inParamNames_congr (n : ℕ) (vs₁ vs₂ : List PyScalar) (h : vs₁.length = vs₂.length) :
    (inParamNames n vs₁).1 = (inParamNames n vs₂).1
    ∧ (inParamNames n vs₁).2.1.map Prod.fst = (inParamNames n vs₂).2.1.map Prod.fst
    ∧ (inParamNames n vs₁).2.2 = (inParamNames n vs₂).2.2 := by
  obtain ⟨a1, a2, a3⟩ := inParamNames_spec vs₁ n
  obtain ⟨b1, b2, b3⟩ := inParamNames_spec vs₂ n
  rw [a1, b1, a2, b2, a3, b3, h]
  exact ⟨rfl, rfl, rfl⟩

theorem generate_tag_condition_inv (tag_key : String) (op : FilterOperator)
    (v : PyValue) (uk alw : Bool) (n : ℕ) (r : String × List (String × PyValue) × ℕ)
    (h : generate_tag_condition tag_key op v uk alw n = .ok r) :
    r = ("tags['" ++ tag_key ++ "'] " ++ opText op ++ " :" ++ paramName n,
         [(paramName n, v)], n + 1) := by
  unfold generate_tag_condition at h
  split at h <;> dsimp only at h <;> split at h <;> cases h <;> rfl

theorem generate_metadata_condition_inv (mkey : String) (op : FilterOperator)
    (v : PyValue) (uk : Bool) (n : ℕ) (r : String × List (String × PyValue) × ℕ)
    (h : generate_metadata_condition mkey op v uk n = .ok r) :
    r = ("trace_metadata['" ++ mkey ++ "'] " ++ opText op ++ " :" ++ paramName n,
         [(paramName n, v)], n + 1) := by
  unfold generate_metadata_condition at h
  cases h
  rfl

theorem generate_feedback_condition_inv (fname : String) (op : FilterOperator)
    (v : PyValue) (n : ℕ) (r : String × List (String × PyValue) × ℕ)
    (h : generate_feedback_condition fname op v n = .ok r) :
    r = ("feedback." ++ fname ++ " " ++ opText op ++ " :" ++ paramName n,
         [(paramName n, v)], n + 1) := by
  unfold generate_feedback_condition at h
  cases h
  rfl

theorem generate_span_condition_inv (sf : String) (op : FilterOperator)
    (v : PyValue) (n : ℕ) (r : String × List (String × PyValue) × ℕ)
    (h : generate_span_condition sf op v n = .ok r) :
    r = ("span_" ++ sf ++ " " ++ opText op ++ " :" ++ paramName n,
         [(paramName n, v)], n + 1) := by
  unfold generate_span_condition at h
  split at h
  · cases h
  · split at h
    · cases h
    · cases h
      rfl

theorem generate_attribute_condition_out (field : String) (op : FilterOperator)
    (v₁ v₂ : PyValue) (n : ℕ) (r₁ r₂ : String × List (String × PyValue) × ℕ)
    (hlen : pvLen v₁ = pvLen v₂)
    (h₁ : generate_attribute_condition field op v₁ n = .ok r₁)
    (h₂ : generate_attribute_condition field op v₂ n = .ok r₂) :
    r₁.1 = r₂.1 ∧ r₁.2.1.map Prod.fst = r₂.2.1.map Prod.fst ∧ r₁.2.2 = r₂.2.2 := by
  unfold generate_attribute_condition at h₁ h₂
  dsimp only at h₁ h₂
  by_cases hn : (attributeAlias field = "timestamp_ms" ∨ attributeAlias field = "execution_time_ms")
      ∧ op ∉ NUMERIC_OPERATORS
  · rw [if_pos hn] at h₁
    cases h₁
  · rw [if_neg hn] at h₁ h₂
    by_cases h2 : op = .IN
    · rw [if_pos h2] at h₁ h₂
      cases h₁
      cases h₂
      cases v₁ with
      | scalar s₁ =>
        cases v₂ with
        | scalar s₂ =>
          dsimp only
          obtain ⟨e1, e2, e3⟩ := inParamNames_congr (n + 1) [s₁] [s₂] rfl
          exact ⟨by rw [e1], by rw [e2], by rw [e3]⟩
        | list vs₂ =>
          dsimp only [pvLen] at hlen
          dsimp only
          obtain ⟨e1, e2, e3⟩ := inParamNames_congr (n + 1) [s₁] vs₂ (by simpa using hlen)
          exact ⟨by rw [e1], by rw [e2], by rw [e3]⟩
      | list vs₁ =>
        cases v₂ with
        | scalar s₂ =>
          dsimp only [pvLen] at hlen
          dsimp only
          obtain ⟨e1, e2, e3⟩ := inParamNames_congr (n + 1) vs₁ [s₂] (by simpa using hlen)
          exact ⟨by rw [e1], by rw [e2], by rw [e3]⟩
        | list vs₂ =>
          dsimp only [pvLen] at hlen
          dsimp only
          obtain ⟨e1, e2, e3⟩ := inParamNames_congr (n + 1) vs₁ vs₂ hlen
          exact ⟨by rw [e1], by rw [e2], by rw [e3]⟩
    · rw [if_neg h2] at h₁ h₂
      by_cases h3 : op = .NOT_IN
      · rw [if_pos h3] at h₁ h₂
        cases h₁
        cases h₂
        cases v₁ with
        | scalar s₁ =>
          cases v₂ with
          | scalar s₂ =>
            dsimp only
            obtain ⟨e1, e2, e3⟩ := inParamNames_congr (n + 1) [s₁] [s₂] rfl
            exact ⟨by rw [e1], by rw [e2], by rw [e3]⟩
          | list vs₂ =>
            dsimp only [pvLen] at hlen
            dsimp only
            obtain ⟨e1, e2, e3⟩ := inParamNames_congr (n + 1) [s₁] vs₂ (by simpa using hlen)
            exact ⟨by rw [e1], by rw [e2], by rw [e3]⟩
        | list vs₁ =>
          cases v₂ with
          | scalar s₂ =>
            dsimp only [pvLen] at hlen
            dsimp only
            obtain ⟨e1, e2, e3⟩ := inParamNames_congr (n + 1) vs₁ [s₂] (by simpa using hlen)
            exact ⟨by rw [e1], by rw [e2], by rw [e3]⟩
          | list vs₂ =>
            dsimp only [pvLen] at hlen
            dsimp only
            obtain ⟨e1, e2, e3⟩ := inParamNames_congr (n + 1) vs₁ vs₂ hlen
            exact ⟨by rw [e1], by rw [e2], by rw [e3]⟩
      · rw [if_neg h3] at h₁ h₂
        cases h₁
        cases h₂
        exact ⟨rfl, rfl, rfl⟩

theorem lift_ok2 (g : Except ParseErr (String × List (String × PyValue) × Nat))
    {r : (Option String × List (String × PyValue)) × ℕ}
    (h : Except.map (fun x => ((some x.1, x.2.1), x.2.2)) g = .ok r) :
    ∃ c p m, g = .ok (c, p, m) ∧ r = ((some c, p), m) := by
  cases g with
  | error e => simp [Except.map] at h
  | ok val =>
    obtain ⟨c, p, m⟩ := val
    refine ⟨c, p, m, rfl, ?_⟩
    simp only [Except.map, Except.ok.injEq] at h
    exact h.symm

theorem lift_pair_eq {g1 g2 : Except ParseErr (String × List (String × PyValue) × Nat)}
    {c₁ c₂ : Option String} {p₁ p₂ : List (String × PyValue)} {n₁ n₂ : ℕ}
    (h₁ : Except.map (fun x => ((some x.1, x.2.1), x.2.2)) g1 = .ok ((c₁, p₁), n₁))
    (h₂ : Except.map (fun x => ((some x.1, x.2.1), x.2.2)) g2 = .ok ((c₂, p₂), n₂))
    (key : ∀ a₁ a₂ : String × List (String × PyValue) × Nat,
      g1 = .ok a₁ → g2 = .ok a₂ →
      a₁.1 = a₂.1 ∧ a₁.2.1.map Prod.fst = a₂.2.1.map Prod.fst ∧ a₁.2.2 = a₂.2.2) :
    c₁ = c₂ ∧ p₁.map Prod.fst = p₂.map Prod.fst ∧ n₁ = n₂ := by
  obtain ⟨a, b, m, hg₁, hr₁⟩ := lift_ok2 g1 h₁
  obtain ⟨a2, b2, m2, hg₂, hr₂⟩ := lift_ok2 g2 h₂
  obtain ⟨k1, k2, k3⟩ := key (a, b, m) (a2, b2, m2) hg₁ hg₂
  injection hr₁ with i1 i2
  injection i1 with i1a i1b
  injection hr₂ with j1 j2
  injection j1 with j1a j1b
  subst i1a i1b i2 j1a j1b j2
  dsimp only at k1 k2 k3
  exact ⟨by rw [k1], k2, k3⟩

theorem shapeOf_empty_inv (cs : List Char) (h : shapeOf cs = some ClauseShape.empty) :
    pyStrip cs = [] := by
  by_cases ht : pyStrip cs = []
  · exact ht
  · exfalso
    unfold shapeOf at h
    dsimp only at h
    rw [if_neg ht] at h
    by_cases hcnt : (pyStrip cs).take 6 = "count(".toList
    · rw [if_pos hcnt] at h
      cases hscan : countScan [] ((pyStrip cs).drop 6) with
      | none => rw [hscan] at h; cases h
      | some trip =>
        obtain ⟨inner, cop, rhs⟩ := trip
        rw [hscan] at h
        dsimp only at h
        cases hsh : shapeOf inner with
        | none => rw [hsh] at h; cases h
        | some ish => rw [hsh] at h; cases h
    · rw [if_neg hcnt] at h
      cases hfc : findClause (pyStrip cs) with
      | none => rw [hfc] at h; cases h
      | some trip =>
        obtain ⟨fr, op2, vcs⟩ := trip
        rw [hfc] at h
        dsimp only at h
        cases h

theorem shapeOf_cnt_inv (cs : List Char) (ish : ClauseShape) (cop : FilterOperator)
    (h : shapeOf cs = some (ClauseShape.cnt ish cop)) :
    pyStrip cs ≠ [] ∧ (pyStrip cs).take 6 = "count(".toList ∧
    ∃ inner rhs, countScan [] ((pyStrip cs).drop 6) = some (inner, cop, rhs)
      ∧ shapeOf inner = some ish := by
  unfold shapeOf at h
  dsimp only at h
  by_cases ht : pyStrip cs = []
  · rw [if_pos ht] at h
    cases h
  · rw [if_neg ht] at h
    by_cases hcnt : (pyStrip cs).take 6 = "count(".toList
    · rw [if_pos hcnt] at h
      refine ⟨ht, hcnt, ?_⟩
      cases hscan : countScan [] ((pyStrip cs).drop 6) with
      | none => rw [hscan] at h; cases h
      | some trip =>
        obtain ⟨inner, cop2, rhs⟩ := trip
        rw [hscan] at h
        dsimp only at h
        cases hsh : shapeOf inner with
        | none => rw [hsh] at h; cases h
        | some ish2 =>
          rw [hsh] at h
          cases h
          exact ⟨inner, rhs, rfl, hsh⟩
    · rw [if_neg hcnt] at h
      cases hfc : findClause (pyStrip cs) with
      | none => rw [hfc] at h; cases h
      | some trip =>
        obtain ⟨fr, op2, vcs⟩ := trip
        rw [hfc] at h
        dsimp only at h
        cases h

theorem shapeOf_simple_inv (cs : List Char) (f : String) (op : FilterOperator) (a : ℕ)
    (h : shapeOf cs = some (ClauseShape.simple f op a)) :
    pyStrip cs ≠ [] ∧ ¬(pyStrip cs).take 6 = "count(".toList ∧
    ∃ fr vcs, findClause (pyStrip cs) = some (fr, op, vcs)
      ∧ stripBQ fr = f ∧ arityOf op vcs = a := by
  unfold shapeOf at h
  dsimp only at h
  by_cases ht : pyStrip cs = []
  · rw [if_pos ht] at h
    cases h
  · rw [if_neg ht] at h
    by_cases hcnt : (pyStrip cs).take 6 = "count(".toList
    · rw [if_pos hcnt] at h
      exfalso
      cases hscan : countScan [] ((pyStrip cs).drop 6) with
      | none => rw [hscan] at h; cases h
      | some trip =>
        obtain ⟨inner, cop2, rhs⟩ := trip
        rw [hscan] at h
        dsimp only at h
        cases hsh : shapeOf inner with
        | none => rw [hsh] at h; cases h
        | some ish2 => rw [hsh] at h; cases h
    · rw [if_neg hcnt] at h
      refine ⟨ht, hcnt, ?_⟩
      cases hfc : findClause (pyStrip cs) with
      | none => rw [hfc] at h; cases h
      | some trip =>
        obtain ⟨fr, op2, vcs⟩ := trip
        rw [hfc] at h
        dsimp only at h
        cases h
        exact ⟨fr, vcs, rfl, rfl, rfl⟩

/-- Shape noninterference of `_parse_condition`: two clauses of the same
shape (same field text, operator, and literal arity) produce, from the same
counter, the same condition text, the same parameter-name list, and the
same final counter — the literal content influences only the bound values. -/
theorem parseCondition_shape_determined : ∀ (len : ℕ) (cs₁ cs₂ : List Char),
    cs₁.length ≤ len →
    ∀ (sh : ClauseShape) (n : ℕ) (c₁ c₂ : Option String)
      (p₁ p₂ : List (String × PyValue)) (n₁ n₂ : ℕ),
    shapeOf cs₁ = some sh → shapeOf cs₂ = some sh →
    parseCondition cs₁ n = .ok ((c₁, p₁), n₁) →
    parseCondition cs₂ n = .ok ((c₂, p₂), n₂) →
    c₁ = c₂ ∧ p₁.map Prod.fst = p₂.map Prod.fst ∧ n₁ = n₂ := by
  intro len
  induction len with
  | zero =>
    intro cs₁ cs₂ hcs sh n c₁ c₂ p₁ p₂ n₁ n₂ hs₁ hs₂ h₁ h₂
    have hnil : cs₁ = [] := List.length_eq_zero.mp (by omega)
    subst hnil
    have hsh : sh = ClauseShape.empty := by
      unfold shapeOf at hs₁
      rw [if_pos (show pyStrip [] = [] from rfl)] at hs₁
      exact (Option.some.inj hs₁).symm
    subst hsh
    have ht₂ : pyStrip cs₂ = [] := shapeOf_empty_inv cs₂ hs₂
    unfold parseCondition at h₁ h₂
    rw [if_pos (show pyStrip [] = [] from rfl)] at h₁
    rw [if_pos ht₂] at h₂
    cases h₁
    cases h₂
    exact ⟨rfl, rfl, rfl⟩
  | succ len ih =>
    intro cs₁ cs₂ hcs sh n c₁ c₂ p₁ p₂ n₁ n₂ hs₁ hs₂ h₁ h₂
    cases sh with
    | empty =>
      have ht₁ := shapeOf_empty_inv cs₁ hs₁
      have ht₂ := shapeOf_empty_inv cs₂ hs₂
      unfold parseCondition at h₁ h₂
      rw [if_pos ht₁] at h₁
      rw [if_pos ht₂] at h₂
      cases h₁
      cases h₂
      exact ⟨rfl, rfl, rfl⟩
    | cnt ish cop =>
      obtain ⟨ht₁, hcnt₁, inner₁, rhs₁, hscan₁, hish₁⟩ := shapeOf_cnt_inv cs₁ ish cop hs₁
      obtain ⟨ht₂, hcnt₂, inner₂, rhs₂, hscan₂, hish₂⟩ := shapeOf_cnt_inv cs₂ ish cop hs₂
      unfold parseCondition at h₁ h₂
      dsimp only at h₁ h₂
      rw [if_neg ht₁, if_pos hcnt₁, hscan₁] at h₁
      rw [if_neg ht₂, if_pos hcnt₂, hscan₂] at h₂
      dsimp only at h₁ h₂
      cases hin₁ : parseCondition inner₁ n with
      | error e => rw [hin₁] at h₁; cases h₁
      | ok val₁ =>
        obtain ⟨⟨ic₁, ip₁⟩, m₁⟩ := val₁
        rw [hin₁] at h₁
        dsimp only at h₁
        cases hin₂ : parseCondition inner₂ n with
        | error e => rw [hin₂] at h₂; cases h₂
        | ok val₂ =>
          obtain ⟨⟨ic₂, ip₂⟩, m₂⟩ := val₂
          rw [hin₂] at h₂
          dsimp only at h₂
          cases h₁
          cases h₂
          have hlen : inner₁.length ≤ len := by
            have hc := countScan_length ((pyStrip cs₁).drop 6) [] inner₁ cop rhs₁ hscan₁
            have h2 := pyStrip_length_le cs₁
            have h4 := congrArg List.length hcnt₁
            rw [List.length_take] at h4
            have h5 : ("count(".toList).length = 6 := by decide
            have hd : ((pyStrip cs₁).drop 6).length = (pyStrip cs₁).length - 6 :=
              List.length_drop 6 _
            have hnil0 : ([] : List Char).length = 0 := rfl
            omega
          obtain ⟨e1, e2, e3⟩ := ih inner₁ inner₂ hlen ish n ic₁ ic₂ ip₁ ip₂ m₁ m₂
            hish₁ hish₂ hin₁ hin₂
          refine ⟨by rw [e1, e3], ?_, by rw [e3]⟩
          simp only [List.map_append, List.map_cons, List.map_nil]
          rw [e2, e3]
    | simple f op a =>
      obtain ⟨ht₁, hcnt₁, fr₁, vcs₁, hfc₁, hf₁, ha₁⟩ := shapeOf_simple_inv cs₁ f op a hs₁
      obtain ⟨ht₂, hcnt₂, fr₂, vcs₂, hfc₂, hf₂, ha₂⟩ := shapeOf_simple_inv cs₂ f op a hs₂
      unfold parseCondition at h₁ h₂
      dsimp only at h₁ h₂
      rw [if_neg ht₁, if_neg hcnt₁, hfc₁] at h₁
      rw [if_neg ht₂, if_neg hcnt₂, hfc₂] at h₂
      dsimp only at h₁ h₂
      rw [hf₁] at h₁
      rw [hf₂] at h₂
      by_cases hb1 : pyStartsWith f "tags." = true
      · rw [if_pos hb1] at h₁ h₂
        refine lift_pair_eq h₁ h₂ ?_
        intro a₁ a₂ hg₁ hg₂
        rw [generate_tag_condition_inv _ _ _ _ _ _ _ hg₁,
            generate_tag_condition_inv _ _ _ _ _ _ _ hg₂]
        exact ⟨rfl, rfl, rfl⟩
      · rw [if_neg hb1] at h₁ h₂
        by_cases hb2 : pyStartsWith f "metadata." = true
        · rw [if_pos hb2] at h₁ h₂
          refine lift_pair_eq h₁ h₂ ?_
          intro a₁ a₂ hg₁ hg₂
          rw [generate_metadata_condition_inv _ _ _ _ _ _ hg₁,
              generate_metadata_condition_inv _ _ _ _ _ _ hg₂]
          exact ⟨rfl, rfl, rfl⟩
        · rw [if_neg hb2] at h₁ h₂
          by_cases hb3 : pyStartsWith f "feedback." = true
          · rw [if_pos hb3] at h₁ h₂
            refine lift_pair_eq h₁ h₂ ?_
            intro a₁ a₂ hg₁ hg₂
            rw [generate_feedback_condition_inv _ _ _ _ _ hg₁,
                generate_feedback_condition_inv _ _ _ _ _ hg₂]
            exact ⟨rfl, rfl, rfl⟩
          · rw [if_neg hb3] at h₁ h₂
            by_cases hb4 : pyStartsWith f "span." = true
            · rw [if_pos hb4] at h₁ h₂
              refine lift_pair_eq h₁ h₂ ?_
              intro a₁ a₂ hg₁ hg₂
              rw [generate_span_condition_inv _ _ _ _ _ hg₁,
                  generate_span_condition_inv _ _ _ _ _ hg₂]
              exact ⟨rfl, rfl, rfl⟩
            · rw [if_neg hb4] at h₁ h₂
              cases hlk : (SEARCH_KEY_TO_TAG.lookup f : Option String) with
              | some tagKey =>
                rw [hlk] at h₁ h₂
                dsimp only at h₁ h₂
                by_cases hmf : f ∈ STRING_MAPPED_FIELDS
                · rw [if_pos hmf] at h₁ h₂
                  refine lift_pair_eq h₁ h₂ ?_
                  intro a₁ a₂ hg₁ hg₂
                  rw [generate_tag_condition_inv _ _ _ _ _ _ _ hg₁,
                      generate_tag_condition_inv _ _ _ _ _ _ _ hg₂]
                  exact ⟨rfl, rfl, rfl⟩
                · rw [if_neg hmf] at h₁ h₂
                  refine lift_pair_eq h₁ h₂ ?_
                  intro a₁ a₂ hg₁ hg₂
                  rw [generate_tag_condition_inv _ _ _ _ _ _ _ hg₁,
                      generate_tag_condition_inv _ _ _ _ _ _ _ hg₂]
                  exact ⟨rfl, rfl, rfl⟩
              | none =>
                rw [hlk] at h₁ h₂
                dsimp only at h₁ h₂
                cases hlm : (SEARCH_KEY_TO_METADATA.lookup f : Option String) with
                | some mkey =>
                  rw [hlm] at h₁ h₂
                  dsimp only at h₁ h₂
                  refine lift_pair_eq h₁ h₂ ?_
                  intro a₁ a₂ hg₁ hg₂
                  rw [generate_metadata_condition_inv _ _ _ _ _ _ hg₁,
                      generate_metadata_condition_inv _ _ _ _ _ _ hg₂]
                  exact ⟨rfl, rfl, rfl⟩
                | none =>
                  rw [hlm] at h₁ h₂
                  dsimp only at h₁ h₂
                  refine lift_pair_eq h₁ h₂ ?_
                  intro a₁ a₂ hg₁ hg₂
                  exact generate_attribute_condition_out f op _ _ n a₁ a₂
                    (by rw [pvLen_parseValue, pvLen_parseValue, ha₁, ha₂]) hg₁ hg₂

theorem parseCondition_status_ok :
    parseCondition ("status = 'OK'".toList) 0
      = .ok ((some "state = :param_0",
              [("param_0", PyValue.scalar (PyScalar.pstr "OK"))]), 1) := by
  unfold parseCondition
  have ht : pyStrip ("status = 'OK'".toList) = "status = 'OK'".toList := by decide
  simp only [ht]
  rw [if_neg (by decide), if_neg (by decide)]
  have hfc : findClause ("status = 'OK'".toList)
      = some ("status".toList, .EQ, "'OK'".toList) := by decide
  rw [hfc]
  have hsb : stripBQ ("status".toList) = "status" := by decide
  simp only [hsb]
  rw [if_neg (by decide : ¬ pyStartsWith "status" "tags." = true),
      if_neg (by decide : ¬ pyStartsWith "status" "metadata." = true),
      if_neg (by decide : ¬ pyStartsWith "status" "feedback." = true),
      if_neg (by decide : ¬ pyStartsWith "status" "span." = true)]
  have hlk : (SEARCH_KEY_TO_TAG.lookup ("status" : String) : Option String) = none := by
    decide
  rw [hlk]
  have hlm : (SEARCH_KEY_TO_METADATA.lookup ("status" : String) : Option String) = none := by
    decide
  rw [hlm]
  rfl

theorem filterParse_status_ok :
    filterParse "status = 'OK'"
      = .ok (["state = :param_0"], [("param_0", PyValue.scalar (PyScalar.pstr "OK"))]) := by
  unfold filterParse
  rw [if_neg (by decide)]
  have hsplit : splitByAnd "status = 'OK'" = ["status = 'OK'"] := by decide
  rw [hsplit]
  simp only [parseClauses]
  have hps : pyStrip ("status = 'OK'".toList) = "status = 'OK'".toList := by decide
  simp only [hps, parseCondition_status_ok]
  rfl

/-- C1: on every successful `parse`, (a) the parameter names of the returned
binding list are pairwise distinct and all of the machine-generated
`param_N` form, so literals live only as bound values behind `:param_N`
placeholders; (b) the returned condition list preserves the left-to-right
clause order of the filter string (it is the order-preserving flattening of
a per-clause list, each entry produced by `_parse_condition` on the
corresponding clause); (c) condition text never embeds literal content: two
clauses of the same shape — same field, operator and literal arity — yield
identical condition text, identical parameter names and identical final
counter, differing only in the bound values. -/
theorem C1_parse_invariants (s : String) (conds : List String)
    (params : List (String × PyValue))
    (h : filterParse s = .ok (conds, params)) :
    ((params.map Prod.fst).Nodup
      ∧ ∀ k ∈ params.map Prod.fst, ∃ i, k = paramName i)
    ∧ (∃ pcs : List (Option String), pcs.length = (splitByAnd s).length
        ∧ conds = pcs.reduceOption
        ∧ ∀ (i : ℕ) (p : String), (splitByAnd s)[i]? = some p →
            ∃ m copt prms m',
              parseCondition (pyStrip p.toList) m = .ok ((copt, prms), m')
              ∧ pcs[i]? = some (flattenCond copt))
    ∧ (∀ (cs₁ cs₂ : List Char) (sh : ClauseShape) (n : ℕ)
         (c₁ c₂ : Option String) (p₁ p₂ : List (String × PyValue)) (n₁ n₂ : ℕ),
        shapeOf cs₁ = some sh → shapeOf cs₂ = some sh →
        parseCondition cs₁ n = .ok ((c₁, p₁), n₁) →
        parseCondition cs₂ n = .ok ((c₂, p₂), n₂) →
        c₁ = c₂ ∧ p₁.map Prod.fst = p₂.map Prod.fst ∧ n₁ = n₂) := by
  have hnon : ∀ (cs₁ cs₂ : List Char) (sh : ClauseShape) (n : ℕ)
      (c₁ c₂ : Option String) (p₁ p₂ : List (String × PyValue)) (n₁ n₂ : ℕ),
      shapeOf cs₁ = some sh → shapeOf cs₂ = some sh →
      parseCondition cs₁ n = .ok ((c₁, p₁), n₁) →
      parseCondition cs₂ n = .ok ((c₂, p₂), n₂) →
      c₁ = c₂ ∧ p₁.map Prod.fst = p₂.map Prod.fst ∧ n₁ = n₂ :=
    fun cs₁ cs₂ sh n c₁ c₂ p₁ p₂ n₁ n₂ =>
      parseCondition_shape_determined cs₁.length cs₁ cs₂ (le_refl _) sh n c₁ c₂ p₁ p₂ n₁ n₂
  unfold filterParse at h
  by_cases hs : s = ""
  · rw [if_pos hs] at h
    cases h
    subst hs
    refine ⟨⟨by simp, by simp⟩, ⟨[], ?_, rfl, ?_⟩, hnon⟩
    · rfl
    · intro i p hp
      have hsb : splitByAnd "" = [] := rfl
      rw [hsb] at hp
      simp at hp
  · rw [if_neg hs] at h
    cases hpc : parseClauses 0 (splitByAnd s) with
    | error e => rw [hpc] at h; cases h
    | ok val =>
      obtain ⟨cs0, ps0, n0⟩ := val
      rw [hpc] at h
      dsimp only at h
      cases h
      obtain ⟨-, hnd, hkeys⟩ := parseClauses_keys _ _ _ _ _ hpc
      obtain ⟨pcs, hl, hr, hi⟩ := parseClauses_order _ _ _ _ _ hpc
      exact ⟨⟨hnd, fun k hk => (hkeys k hk).elim fun i hi2 => ⟨i, hi2.2.2⟩⟩,
             ⟨pcs, hl, hr, hi⟩, hnon⟩

/-- C1 witness: the invariants applied to the concrete successful parse of
`"status = 'OK'"`. -/
theorem C1_parse_invariants_witness :
    filterParse "status = 'OK'"
      = .ok (["state = :param_0"], [("param_0", PyValue.scalar (PyScalar.pstr "OK"))])
    ∧ (([("param_0", PyValue.scalar (PyScalar.pstr "OK"))].map Prod.fst).Nodup
       ∧ ∀ k ∈ [("param_0", PyValue.scalar (PyScalar.pstr "OK"))].map Prod.fst,
           ∃ i, k = paramName i) :=
  ⟨filterParse_status_ok,
   (C1_parse_invariants "status = 'OK'" _ _ filterParse_status_ok).1⟩

end MlflowCore
